import Mathlib

/-!
Shallow embedding of the Buster-mkt repository's API-route logic and subgraph
event mappers, with theorems checking the natural-language specification
against the code.

Sources embedded:
- `src/app/api/admin-auto-discover/route.ts` (admin-withdrawal scanner)
- `src/app/api/auto-preview-batch-distribution/route.ts` (distribution previewer)
- `src/app/api/market/analytics/route.ts` (analytics aggregator)
- `policast/src/policast-market-v-3.ts` (event-to-entity mappers)

JavaScript semantics are modelled as follows: `bigint` becomes `Int`
(arbitrary-precision, may be negative), JS `number` in the analytics route
becomes `ℚ` (exact arithmetic standing in for IEEE doubles; every property
proved is robust under this reading), strings are Lean `String`s with an
explicit ASCII `toLowerCase` model, absent/`undefined` JSON fields become
`Option`, and a `throw` caught by a handler becomes an `Except` value.
-/

/-- Models JavaScript `String.prototype.toLowerCase` on a single ASCII
character: uppercase letters are shifted into lowercase, all other
characters are unchanged. -/
def lowerChar (c : Char) : Char :=
  if 'A' ≤ c ∧ c ≤ 'Z' then Char.ofNat (c.toNat + 32) else c

/-- Models JavaScript `String.prototype.toLowerCase` for the ASCII strings
(hex addresses) this codebase lowercases. -/
def lowerStr (s : String) : String :=
  ⟨s.data.map lowerChar⟩

/-- The zero address literal compared against in
`auto-preview-batch-distribution/route.ts`. -/
def zeroAddress : String := "0x0000000000000000000000000000000000000000"

/-- A string is address-shaped when it starts with the literal prefix "0x"
(lowercase x), as every address returned by the viem RPC client does. -/
def addrShaped (s : String) : Prop := s.data.take 2 = ['0', 'x']

instance (s : String) : Decidable (addrShaped s) :=
  inferInstanceAs (Decidable (s.data.take 2 = ['0', 'x']))

/-! ## Admin-withdrawal scanner (`admin-auto-discover/route.ts`) -/

/-- The `getMarketInfo` tuple as destructured in
`checkMarketBatchForAdmin` (route.ts lines 186-197) and in the preview
route (lines 45-58). -/
structure MarketInfo where
  question : String
  descriptionText : String
  endTime : Int
  category : Nat
  optionCount : Int
  resolved : Bool
  disputed : Bool
  marketType : Nat
  invalidated : Bool
  winningOptionId : Int
  creator : String
deriving DecidableEq, Repr

/-- The `getFreeMarketInfo` tuple as destructured in `getUnusedPrizePool`
(route.ts lines 351-357). -/
structure FreeMarketInfo where
  maxParticipants : Int
  tokensPerParticipant : Int
  currentParticipants : Int
  totalPrizePool : Int
  prizePoolWithdrawn : Bool
deriving DecidableEq, Repr

/-- The `getMarketFinancials` fields the scanner reads (route.ts lines
214-217). The defensive `mf[4] ?? mf[3] ?? false` index guessing is
modelled as a single resolved boolean field. -/
structure MarketFinancials where
  adminInitialLiquidity : Int
  adminLiquidityClaimed : Bool
deriving DecidableEq, Repr

/-- The `getLPInfo` fields the scanner reads (route.ts lines 273-277). -/
structure LPInfo where
  contribution : Int
  rewardsClaimed : Bool
  estimatedRewards : Int
deriving DecidableEq, Repr

/-- The `type` discriminator of an `AdminWithdrawal` (route.ts line 16). -/
inductive WithdrawalType where
  | adminLiquidity
  | prizePool
  | lpRewards
deriving DecidableEq, Repr

/-- The `AdminWithdrawal` interface (route.ts lines 13-18). -/
structure AdminWithdrawal where
  marketId : Nat
  amount : Int
  type : WithdrawalType
  descriptionText : String
deriving DecidableEq, Repr

/-- The contract state one market presents to the scanner. A `none` models
a contract read that reverted or returned nothing (each such read sits in
its own try/catch in the route). -/
structure MarketData where
  info : Option MarketInfo
  financials : Option MarketFinancials
  freeMarketInfo : Option FreeMarketInfo
  lpInfo : Option LPInfo

/-- The RPC environment of one scan: the `marketCount` read (which may
fail) and the per-market state. -/
structure ScanEnv where
  marketCount : Except Unit Nat
  markets : Nat → MarketData

/-- `checkIfFreeMarket` (route.ts lines 319-334): the market is free iff
`getFreeMarketInfo` returns data rather than reverting. -/
def checkIfFreeMarket (m : MarketData) : Bool :=
  m.freeMarketInfo.isSome

/-- `getUnusedPrizePool` (route.ts lines 337-386): zero when the free-market
read fails or the pool was withdrawn, otherwise the participation-based
difference clamped to zero from below (`unusedPrizePool > 0n ? unusedPrizePool : 0n`). -/
def getUnusedPrizePool (m : MarketData) : Int :=
  match m.freeMarketInfo with
  | none => 0
  | some fm =>
    if fm.prizePoolWithdrawn then 0
    else
      let maxPossiblePrizePool := fm.maxParticipants * fm.tokensPerParticipant
      let actualPrizePool := fm.currentParticipants * fm.tokensPerParticipant
      let unusedPrizePool := maxPossiblePrizePool - actualPrizePool
      if unusedPrizePool > 0 then unusedPrizePool else 0

/-- Section 1 of the per-market loop body (route.ts lines 203-236): admin
liquidity candidate, only reached when the caller is the creator. -/
def adminLiquidityCandidates (marketId : Nat) (question : String)
    (m : MarketData) : List AdminWithdrawal :=
  match m.financials with
  | none => []
  | some mf =>
    if mf.adminLiquidityClaimed = false ∧ mf.adminInitialLiquidity > 0 then
      [{ marketId := marketId, amount := mf.adminInitialLiquidity,
         type := WithdrawalType.adminLiquidity,
         descriptionText := "Admin liquidity for market \"" ++ question.take 30 ++ "...\"" }]
    else []

/-- Section 2 of the per-market loop body (route.ts lines 238-260): unused
prize pool candidate for resolved free markets, only reached when the
caller is the creator. -/
def prizePoolCandidates (marketId : Nat) (question : String)
    (resolved : Bool) (m : MarketData) : List AdminWithdrawal :=
  if checkIfFreeMarket m = true ∧ resolved = true then
    let unusedPrizePool := getUnusedPrizePool m
    if unusedPrizePool > 0 then
      [{ marketId := marketId, amount := unusedPrizePool,
         type := WithdrawalType.prizePool,
         descriptionText := "Unused prize pool for free market \"" ++ question.take 30 ++ "...\"" }]
    else []
  else []

/-- Section 3 of the per-market loop body (route.ts lines 263-293): LP
rewards, checked for every user. -/
def lpRewardsCandidates (marketId : Nat) (question : String)
    (m : MarketData) : List AdminWithdrawal :=
  match m.lpInfo with
  | none => []
  | some li =>
    if li.rewardsClaimed = false ∧ li.estimatedRewards > 0 then
      [{ marketId := marketId, amount := li.estimatedRewards,
         type := WithdrawalType.lpRewards,
         descriptionText := "LP rewards for market \"" ++ question.take 30 ++ "...\"" }]
    else []

/-- The body of the per-market loop in `checkMarketBatchForAdmin`
(route.ts lines 170-313): a failed or empty `getMarketInfo` skips the
market; otherwise the creator-gated sections run, then the LP section. -/
def checkMarketForAdmin (userAddress : String) (marketId : Nat)
    (m : MarketData) : List AdminWithdrawal :=
  match m.info with
  | none => []
  | some mi =>
    let isCreator := lowerStr mi.creator = lowerStr userAddress
    (if isCreator then
       adminLiquidityCandidates marketId mi.question m
         ++ prizePoolCandidates marketId mi.question mi.resolved m
     else [])
      ++ lpRewardsCandidates marketId mi.question m

/-- `checkMarketBatchForAdmin` (route.ts lines 163-316): markets
`[startId, endId)` checked in order. -/
def checkMarketBatchForAdmin (userAddress : String) (env : ScanEnv)
    (startId endId : Nat) : List AdminWithdrawal :=
  (List.range' startId (endId - startId)).flatMap
    (fun marketId => checkMarketForAdmin userAddress marketId (env.markets marketId))

/-- The batch start indices of the scan loop (route.ts line 133):
`0, 10, 20, ...` below `maxMarketId`, batch size 10. -/
def batchStarts (n : Nat) : List Nat :=
  (List.range ((n + 9) / 10)).map (fun b => b * 10)

/-- Result of one scan: the discovered withdrawals plus the number of
market ids for which per-market contract reads were attempted. -/
structure ScanOutcome where
  withdrawals : List AdminWithdrawal
  perMarketReads : Nat
deriving DecidableEq, Repr

/-- `discoverAdminWithdrawals` (route.ts lines 105-160): a failed
`marketCount` read is caught and yields the empty list; a zero count
returns early; otherwise every batch of 10 is scanned. -/
def discoverAdminWithdrawals (userAddress : String) (env : ScanEnv) :
    ScanOutcome :=
  match env.marketCount with
  | Except.error _ => { withdrawals := [], perMarketReads := 0 }
  | Except.ok n =>
    if n = 0 then { withdrawals := [], perMarketReads := 0 }
    else
      { withdrawals :=
          (batchStarts n).flatMap
            (fun s => checkMarketBatchForAdmin userAddress env s (min (s + 10) n)),
        perMarketReads := n }

/-- The POST body of `admin-auto-discover` (`userAddress` may be absent). -/
structure AdminDiscoverRequest where
  userAddress : Option String
deriving DecidableEq, Repr

/-- The per-category totals of the response, serialized as decimal strings
(route.ts lines 81-86). -/
structure AdminTotals where
  adminLiquidity : String
  prizePool : String
  lpRewards : String
  total : String
deriving DecidableEq, Repr

/-- An `AdminWithdrawal` with its amount serialized for JSON
(route.ts lines 66-79). -/
structure SerializedWithdrawal where
  marketId : Nat
  amount : String
  type : WithdrawalType
  descriptionText : String
deriving DecidableEq, Repr

/-- The JSON response of the `admin-auto-discover` POST handler; `status`
is the HTTP status, `none` payload fields are absent from the JSON. -/
structure AdminDiscoverResponse where
  status : Nat
  error : Option String
  wAdminLiquidity : List SerializedWithdrawal
  wPrizePool : List SerializedWithdrawal
  wLpRewards : List SerializedWithdrawal
  totals : Option AdminTotals
  totalCount : Option Nat
deriving DecidableEq, Repr

/-- Models `BigInt.prototype.toString` for the amounts. -/
def bigintToString (i : Int) : String := toString i

/-- Serialization of one withdrawal (route.ts lines 66-79). -/
def serializeWithdrawal (w : AdminWithdrawal) : SerializedWithdrawal :=
  { marketId := w.marketId, amount := bigintToString w.amount,
    type := w.type, descriptionText := w.descriptionText }

/-- Sum of the amounts of a withdrawal list (route.ts lines 49-63). -/
def sumAmounts (l : List AdminWithdrawal) : Int :=
  l.foldl (fun s w => s + w.amount) 0

/-- The `admin-auto-discover` POST handler (route.ts lines 20-102).
A body whose JSON parse fails is modelled as `Except.error` and hits the
outer catch (500); a missing or empty `userAddress` is falsy and yields
400; otherwise the scan runs and the grouped, serialized 200 response is
built. -/
def adminAutoDiscoverPost (body : Except Unit AdminDiscoverRequest)
    (env : ScanEnv) : AdminDiscoverResponse :=
  match body with
  | Except.error _ =>
    { status := 500, error := some "Failed to auto-discover admin withdrawals",
      wAdminLiquidity := [], wPrizePool := [], wLpRewards := [],
      totals := none, totalCount := none }
  | Except.ok req =>
    match req.userAddress with
    | none =>
      { status := 400, error := some "User address is required",
        wAdminLiquidity := [], wPrizePool := [], wLpRewards := [],
        totals := none, totalCount := none }
    | some userAddress =>
      if userAddress = "" then
        { status := 400, error := some "User address is required",
          wAdminLiquidity := [], wPrizePool := [], wLpRewards := [],
          totals := none, totalCount := none }
      else
        let adminWithdrawals := (discoverAdminWithdrawals userAddress env).withdrawals
        let gAdminLiquidity := adminWithdrawals.filter
          (fun w => w.type = WithdrawalType.adminLiquidity)
        let gPrizePool := adminWithdrawals.filter
          (fun w => w.type = WithdrawalType.prizePool)
        let gLpRewards := adminWithdrawals.filter
          (fun w => w.type = WithdrawalType.lpRewards)
        { status := 200, error := none,
          wAdminLiquidity := gAdminLiquidity.map serializeWithdrawal,
          wPrizePool := gPrizePool.map serializeWithdrawal,
          wLpRewards := gLpRewards.map serializeWithdrawal,
          totals := some
            { adminLiquidity := bigintToString (sumAmounts gAdminLiquidity),
              prizePool := bigintToString (sumAmounts gPrizePool),
              lpRewards := bigintToString (sumAmounts gLpRewards),
              total := bigintToString (sumAmounts adminWithdrawals) },
          totalCount := some adminWithdrawals.length }

/-! ## Batch-distribution previewer (`auto-preview-batch-distribution/route.ts`) -/

/-- The decoded args of one `TradeExecuted` log as the previewer reads them
(route.ts lines 137-147); `none` models an absent `args` field. -/
structure TradeEventArgs where
  buyer : Option String
  seller : Option String
deriving DecidableEq, Repr

/-- The decoded args of one `FreeTokensClaimed` log (route.ts lines 150-156). -/
structure FreeClaimArgs where
  user : Option String
deriving DecidableEq, Repr

/-- The RPC environment of one preview call: the `getMarketInfo` read
(which may fail), the two event-log fetches, and the
`getEligibleWinners` view as a function of the submitted address list. -/
structure PreviewEnv where
  marketInfo : Except Unit MarketInfo
  tradeEvents : List TradeEventArgs
  freeTokenEvents : List FreeClaimArgs
  getEligibleWinners : List String → List String × List Int

/-- One JS `Set.add` of a possibly-absent address (route.ts lines 141-155):
a missing or empty-string address is falsy and skipped, the exact
zero-address literal is skipped, and otherwise the lowercased address is
appended iff not already present (JS `Set` keeps insertion order). -/
def addParticipant (acc : List String) (a : Option String) : List String :=
  match a with
  | none => acc
  | some s =>
    if s ≠ "" ∧ s ≠ zeroAddress then
      if lowerStr s ∈ acc then acc else acc ++ [lowerStr s]
    else acc

/-- The participant-set extraction (route.ts lines 133-158): trade events
contribute buyer then seller, then free-token events contribute the user. -/
def extractParticipants (tr : List TradeEventArgs)
    (fr : List FreeClaimArgs) : List String :=
  let s1 := tr.foldl (fun acc e => addParticipant (addParticipant acc e.buyer) e.seller) []
  fr.foldl (fun acc e => addParticipant acc e.user) s1

/-- Models the wei-to-readable conversion
`(Number(amount) / 1e18).toString()` (route.ts lines 180-182) for the
amounts this development evaluates it at: when `amount` is a multiple of
`10^18` small enough to be an exact IEEE double, the JS computation is
exact and produces the decimal string of the integer quotient. -/
def formatAmountWei (amount : Int) : String :=
  toString (amount / (10 ^ 18 : Int))

/-- The POST body of the previewer (`marketId` may be absent). -/
structure PreviewRequest where
  marketId : Option Int
deriving DecidableEq, Repr

/-- The JSON response of the previewer. `eligibleCount` is `Option`: the
no-participants branch (route.ts lines 160-167) omits the field. -/
structure PreviewResponse where
  status : Nat
  error : Option String
  recipients : List String
  amounts : List String
  totalParticipants : Nat
  eligibleCount : Option Nat
  message : Option String
deriving DecidableEq, Repr

/-- A preview response together with which external interactions the
handler performed before returning: whether the two event-log fetches ran
and whether `getEligibleWinners` was called. -/
structure PreviewOutcome where
  response : PreviewResponse
  fetchedTradeEvents : Bool
  fetchedFreeTokenEvents : Bool
  calledEligibility : Bool
deriving Repr

/-- An empty-list preview response body with the given status, error,
eligibleCount and message fields (the shape shared by every
short-circuit return of the previewer). -/
def emptyPreviewResponse (status : Nat) (error : Option String)
    (eligibleCount : Option Nat) (message : Option String) : PreviewResponse :=
  { status := status
    error := error
    recipients := []
    amounts := []
    totalParticipants := 0
    eligibleCount := eligibleCount
    message := message }

/-- The `auto-preview-batch-distribution` POST handler (route.ts lines
13-203). A body whose JSON parse fails, or a failing `getMarketInfo`
read, reaches the outer catch (500). A missing `marketId` is falsy (so is
the literal `0`) and yields 400, as does a negative id. The precondition
short-circuits return 200 responses with explanatory messages. -/
def autoPreviewPost (body : Except Unit PreviewRequest)
    (env : PreviewEnv) : PreviewOutcome :=
  match body with
  | Except.error _ =>
    { response := emptyPreviewResponse 500 (some "Failed to auto-preview distribution") none none
      fetchedTradeEvents := false
      fetchedFreeTokenEvents := false
      calledEligibility := false }
  | Except.ok req =>
    match req.marketId with
    | none =>
      { response := emptyPreviewResponse 400 (some "Market ID is required") none none
        fetchedTradeEvents := false
        fetchedFreeTokenEvents := false
        calledEligibility := false }
    | some marketId =>
      if marketId = 0 then
        { response := emptyPreviewResponse 400 (some "Market ID is required") none none
          fetchedTradeEvents := false
          fetchedFreeTokenEvents := false
          calledEligibility := false }
      else if marketId < 0 then
        { response := emptyPreviewResponse 400 (some "Invalid market ID") none none
          fetchedTradeEvents := false
          fetchedFreeTokenEvents := false
          calledEligibility := false }
      else
        match env.marketInfo with
        | Except.error _ =>
          { response := emptyPreviewResponse 500 (some "Failed to auto-preview distribution") none none
            fetchedTradeEvents := false
            fetchedFreeTokenEvents := false
            calledEligibility := false }
        | Except.ok mi =>
          if mi.resolved = false then
            { response := emptyPreviewResponse 200 none (some 0)
                (some "Market is not resolved yet. Cannot distribute winnings.")
              fetchedTradeEvents := false
              fetchedFreeTokenEvents := false
              calledEligibility := false }
          else if mi.disputed = true then
            { response := emptyPreviewResponse 200 none (some 0)
                (some "Market is disputed. Cannot distribute winnings.")
              fetchedTradeEvents := false
              fetchedFreeTokenEvents := false
              calledEligibility := false }
          else if env.tradeEvents.length = 0 ∧ env.freeTokenEvents.length = 0 then
            { response := emptyPreviewResponse 200 none (some 0)
                (some "No trade or free token events found for this market. This could mean the market has no participants yet.")
              fetchedTradeEvents := true
              fetchedFreeTokenEvents := true
              calledEligibility := false }
          else
            let participants := extractParticipants env.tradeEvents env.freeTokenEvents
            if participants.length = 0 then
              { response := emptyPreviewResponse 200 none none
                  (some "No participants found for this market")
                fetchedTradeEvents := true
                fetchedFreeTokenEvents := true
                calledEligibility := false }
            else
              let result := env.getEligibleWinners participants
              { response :=
                  { status := 200
                    error := none
                    recipients := result.1
                    amounts := result.2.map formatAmountWei
                    totalParticipants := participants.length
                    eligibleCount := some result.1.length
                    message := none }
                fetchedTradeEvents := true
                fetchedFreeTokenEvents := true
                calledEligibility := true }

/-! ## Analytics aggregator (`market/analytics/route.ts`) -/

/-- Models JavaScript `Math.round` (round half up) on exact rationals. -/
def jsRound (q : ℚ) : ℤ := ⌊q + 1 / 2⌋

/-- The price rounding `Math.round(x * 1000) / 1000` used throughout the
analytics route. -/
def round3 (q : ℚ) : ℚ := (jsRound (q * 1000) : ℚ) / 1000

/-- The `eventType` discriminator of a `MarketEvent` (route.ts line 13). -/
inductive AnalyticsEventType where
  | sharesPurchased
  | marketCreated
  | marketResolved
deriving DecidableEq, Repr

/-- The `MarketEvent` interface (route.ts lines 9-17) as produced by
`getMarketEvents`, which always fills the optional fields for
SharesPurchased logs. `timestamp` is epoch milliseconds. -/
structure MarketEvent where
  blockNumber : Nat
  timestamp : Int
  eventType : AnalyticsEventType
  isOptionA : Bool
  amount : ℚ
  buyer : String
deriving DecidableEq, Repr

/-- One value of the `dailyData` map (route.ts lines 92-101). -/
structure DailyData where
  optionAVolume : ℚ
  optionBVolume : ℚ
  totalVolume : ℚ
  trades : Nat
  timestamp : Int
deriving DecidableEq, Repr

/-- One bucket of the price history (`PriceHistoryData`); the ISO date
string key is modelled by the UTC day index `timestamp / 86400000`. -/
structure PriceHistoryData where
  date : Int
  timestamp : Int
  optionA : ℚ
  optionB : ℚ
  volume : ℚ
  trades : Nat
deriving DecidableEq, Repr

/-- One bucket of the volume history (`VolumeHistoryData`). -/
structure VolumeHistoryData where
  date : Int
  timestamp : Int
  volume : ℚ
  trades : Nat
deriving DecidableEq, Repr

/-- The `MarketAnalytics` payload; the `lastUpdated` ISO string is
modelled by the epoch-milliseconds clock value it is rendered from. -/
structure MarketAnalytics where
  priceHistory : List PriceHistoryData
  volumeHistory : List VolumeHistoryData
  totalVolume : ℚ
  totalTrades : Nat
  priceChange24h : ℚ
  volumeChange24h : ℚ
  lastUpdated : Int
deriving DecidableEq, Repr

/-- Models the grouping key `new Date(ts).toISOString().split("T")[0]`:
two timestamps produce the same ISO date string exactly when they fall in
the same UTC day, i.e. have the same floor-division day index. -/
def dateKey (ts : Int) : Int := ts.fdiv 86400000

/-- The fresh `dailyData` entry defaulted on first sight of a date
(route.ts lines 109-115). -/
def initDaily (ts : Int) : DailyData :=
  { optionAVolume := 0, optionBVolume := 0, totalVolume := 0,
    trades := 0, timestamp := ts }

/-- The per-event mutation of a day's accumulator (route.ts lines 117-127). -/
def applyEvent (d : DailyData) (e : MarketEvent) : DailyData :=
  let amount := e.amount
  let d1 :=
    if e.isOptionA then { d with optionAVolume := d.optionAVolume + amount }
    else { d with optionBVolume := d.optionBVolume + amount }
  { d1 with totalVolume := d1.totalVolume + amount, trades := d1.trades + 1 }

/-- One `dailyData.set(date, existing)` step: JS `Map` updates in place,
keeping insertion order, and defaults a missing key. -/
def updateDaily (l : List (Int × DailyData)) (key : Int) (e : MarketEvent) :
    List (Int × DailyData) :=
  match l with
  | [] => [(key, applyEvent (initDaily e.timestamp) e)]
  | (k, v) :: rest =>
    if k = key then (k, applyEvent v e) :: rest
    else (k, v) :: updateDaily rest key e

/-- The `events.forEach` fold building `dailyData` (route.ts lines
106-131); only SharesPurchased events contribute. -/
def buildDailyData (events : List MarketEvent) : List (Int × DailyData) :=
  events.foldl
    (fun acc e =>
      match e.eventType with
      | AnalyticsEventType.sharesPurchased => updateDaily acc (dateKey e.timestamp) e
      | _ => acc)
    []

/-- `Array.from(dailyData.entries()).sort((a, b) => a.timestamp - b.timestamp)`
(route.ts lines 137-138): a stable ascending sort on the bucket timestamp. -/
def sortedDaily (events : List MarketEvent) : List (Int × DailyData) :=
  (buildDailyData events).mergeSort
    (fun a b => decide (a.2.timestamp ≤ b.2.timestamp))

/-- The running-total map over the sorted buckets (route.ts lines
133-155): each bucket's price is the cumulative per-option share of all
volume so far, defaulting to one half when no volume was seen. -/
def buildPriceHistory (runA runB : ℚ) :
    List (Int × DailyData) → List PriceHistoryData
  | [] => []
  | (d, data) :: rest =>
    let runA1 := runA + data.optionAVolume
    let runB1 := runB + data.optionBVolume
    let totalVol := runA1 + runB1
    let optionA := if totalVol > 0 then runA1 / totalVol else 1 / 2
    let optionB := if totalVol > 0 then runB1 / totalVol else 1 / 2
    { date := d, timestamp := data.timestamp,
      optionA := round3 optionA, optionB := round3 optionB,
      volume := data.totalVolume, trades := data.trades }
      :: buildPriceHistory runA1 runB1 rest

/-- The volume-history map over the sorted buckets (route.ts lines 157-164). -/
def buildVolumeHistory (l : List (Int × DailyData)) : List VolumeHistoryData :=
  l.map (fun p =>
    { date := p.1, timestamp := p.2.timestamp,
      volume := p.2.totalVolume, trades := p.2.trades })

/-- The `totalVolume` accumulator of the same forEach loop. -/
def totalVolumeOf (events : List MarketEvent) : ℚ :=
  events.foldl
    (fun s e =>
      match e.eventType with
      | AnalyticsEventType.sharesPurchased => s + e.amount
      | _ => s)
    0

/-- The `totalTrades` accumulator of the same forEach loop. -/
def totalTradesOf (events : List MarketEvent) : Nat :=
  events.foldl
    (fun s e =>
      match e.eventType with
      | AnalyticsEventType.sharesPurchased => s + 1
      | _ => s)
    0

/-- `calculatePriceChange` (route.ts lines 184-191): 0 below two buckets,
else last optionA minus previous optionA. The JS indexing
`ph[len-1]`, `ph[len-2]` is modelled with `getD` (both indices are in
bounds whenever the branch is reached). -/
def calculatePriceChange (ph : List PriceHistoryData) : ℚ :=
  if ph.length < 2 then 0
  else
    let latest := ph.getD (ph.length - 1) (initPH)
    let previous := ph.getD (ph.length - 2) (initPH)
    latest.optionA - previous.optionA
where
  initPH : PriceHistoryData :=
    { date := 0, timestamp := 0, optionA := 0, optionB := 0, volume := 0, trades := 0 }

/-- `calculateVolumeChange` (route.ts lines 193-201): 0 below two buckets;
a zero previous volume reports 1 for a positive latest volume and 0
otherwise; else the relative delta. -/
def calculateVolumeChange (vh : List VolumeHistoryData) : ℚ :=
  if vh.length < 2 then 0
  else
    let latest := vh.getD (vh.length - 1) (initVH)
    let previous := vh.getD (vh.length - 2) (initVH)
    if previous.volume = 0 then (if latest.volume > 0 then 1 else 0)
    else (latest.volume - previous.volume) / previous.volume
where
  initVH : VolumeHistoryData :=
    { date := 0, timestamp := 0, volume := 0, trades := 0 }

/-- One iteration of the fallback loop (route.ts lines 210-236) at
countdown value `i`, consuming the random draws `rand (3*j)`,
`rand (3*j+1)`, `rand (3*j+2)` (each in `[0,1)`), with `now` the epoch
milliseconds of `new Date()`. Returns the pushed pair of history entries
and the updated `currentPriceA`, which is clamped into `[0.05, 0.95]`. -/
def fallbackStep (rand : Nat → ℚ) (now : Int) (i j : Nat) (priceA : ℚ) :
    (PriceHistoryData × VolumeHistoryData) × ℚ :=
  let volatility := (rand (3 * j) - 1 / 2) * (1 / 10)
  let priceA1 := max (5 / 100) (min (95 / 100) (priceA + volatility))
  let volume : ℚ := ((⌊rand (3 * j + 1) * 1000⌋ : ℤ) : ℚ) + 100
  let trades : Nat := (⌊rand (3 * j + 2) * 50⌋).toNat + 10
  let ts : Int := now - (i : Int) * 86400000
  (({ date := dateKey ts, timestamp := ts,
      optionA := round3 priceA1, optionB := round3 (1 - priceA1),
      volume := volume, trades := trades },
    { date := dateKey ts, timestamp := ts, volume := volume, trades := trades }),
   priceA1)

/-- The fallback loop `for (let i = 7; i >= 0; i--)` (route.ts lines
210-236): runs at `i, i-1, ..., 0`, threading `currentPriceA` and the
random-draw counter `j`. -/
def fallbackEntries (rand : Nat → ℚ) (now : Int) :
    Nat → ℚ → Nat → List (PriceHistoryData × VolumeHistoryData)
  | 0, priceA, j => [(fallbackStep rand now 0 j priceA).1]
  | Nat.succ k, priceA, j =>
    let step := fallbackStep rand now (Nat.succ k) j priceA
    step.1 :: fallbackEntries rand now k step.2 (j + 1)

/-- `generateFallbackAnalytics` (route.ts lines 203-247), with
`Math.random()` modelled by the stream `rand` (each draw in `[0,1)`) and
`new Date()` / `Date.now()` by `now`. The loop consumes draws
`0..23`; the two change fields consume draws 24 and 25. -/
def generateFallbackAnalytics (rand : Nat → ℚ) (now : Int) : MarketAnalytics :=
  let pairs := fallbackEntries rand now 7 (1 / 2) 0
  { priceHistory := pairs.map (fun p => p.1)
    volumeHistory := pairs.map (fun p => p.2)
    totalVolume := (pairs.map (fun p => p.1)).foldl (fun s p => s + p.volume) 0
    totalTrades := (pairs.map (fun p => p.1)).foldl (fun s p => s + p.trades) 0
    priceChange24h := (rand 24 - 1 / 2) * (2 / 10)
    volumeChange24h := (rand 25 - 1 / 2) * 2
    lastUpdated := now }

/-- `calculateMarketAnalytics` (route.ts lines 82-182). The event fetch
is passed in as `events` (its own try/catch already converts an RPC
failure into the empty list, route.ts lines 76-79); zero events fall back
to the synthetic series. -/
def calculateMarketAnalytics (events : List MarketEvent) (rand : Nat → ℚ)
    (now : Int) : MarketAnalytics :=
  if events.length = 0 then generateFallbackAnalytics rand now
  else
    let sorted := sortedDaily events
    let priceHistory := buildPriceHistory 0 0 sorted
    let volumeHistory := buildVolumeHistory sorted
    { priceHistory := priceHistory
      volumeHistory := volumeHistory
      totalVolume := totalVolumeOf events
      totalTrades := totalTradesOf events
      priceChange24h := calculatePriceChange priceHistory
      volumeChange24h := calculateVolumeChange volumeHistory
      lastUpdated := now }

/-- The environment of one analytics GET: the fetched events, the cache
entry for the request's key (with its lastUpdated clock), the random
stream for fallback mode, and the clock. -/
structure AnalyticsEnv where
  events : List MarketEvent
  cache : Option (MarketAnalytics × Int)
  rand : Nat → ℚ
  now : Int

/-- The JSON response of the analytics GET handler. -/
structure AnalyticsResponse where
  status : Nat
  payload : Option MarketAnalytics
  error : Option String

/-- The cutoff of the time-range filter (route.ts lines 274-289). -/
def timeRangeCutoff (timeRange : String) (now : Int) : Int :=
  if timeRange = "24h" then now - 86400000
  else if timeRange = "7d" then now - 7 * 86400000
  else if timeRange = "30d" then now - 30 * 86400000
  else 0

/-- The cache-miss path of the analytics GET handler (route.ts lines
270-307): compute fresh analytics, filter both histories by the cutoff,
respond 200. -/
def analyticsFresh (timeRange : String) (env : AnalyticsEnv) : AnalyticsResponse :=
  let analytics := calculateMarketAnalytics env.events env.rand env.now
  let cutoffTime := timeRangeCutoff timeRange env.now
  { status := 200
    payload := some
      { analytics with
        priceHistory := analytics.priceHistory.filter (fun p => decide (p.timestamp ≥ cutoffTime))
        volumeHistory := analytics.volumeHistory.filter (fun v => decide (v.timestamp ≥ cutoffTime)) }
    error := none }

/-- The analytics GET handler (route.ts lines 249-315). A falsy
`marketId` query parameter (absent or empty) yields 400; a fresh-enough
cache entry is returned as-is; otherwise the fresh path runs. The
handler's catch converts any failure into a 200 fallback payload, so no
input reaches a 500. -/
def analyticsGet (marketIdParam : Option String) (timeRangeParam : Option String)
    (env : AnalyticsEnv) : AnalyticsResponse :=
  match marketIdParam with
  | none => { status := 400, payload := none, error := some "Market ID is required" }
  | some mid =>
    if mid = "" then
      { status := 400, payload := none, error := some "Market ID is required" }
    else
      let timeRange :=
        match timeRangeParam with
        | none => "7d"
        | some t => if t = "" then "7d" else t
      match env.cache with
      | some c =>
        if env.now - c.2 < 300000 then
          { status := 200, payload := some c.1, error := none }
        else analyticsFresh timeRange env
      | none => analyticsFresh timeRange env

/-! ## Event-to-entity mappers (`policast/src/policast-market-v-3.ts`) -/

/-- Models graph-ts `BigInt.toI32`: truncation to the low 32 bits,
interpreted as a signed 32-bit integer. -/
def toI32 (n : Int) : Int :=
  let m := n % (2 ^ 32 : Int)
  if m < 2 ^ 31 then m else m - 2 ^ 32

/-- Models graph-ts `ByteArray.fromI32`: the four bytes of the i32's
two's-complement representation in the byte array's storage order
(little-endian, as written by the WebAssembly store). -/
def i32Bytes (n : Int) : List Nat :=
  let u := (n % (2 ^ 32 : Int)).toNat
  [u % 256, u / 256 % 256, u / 65536 % 256, u / 16777216 % 256]

/-- Models graph-ts `ByteArray.concatI32`: the receiver's bytes followed
by the four bytes of the i32. -/
def concatI32 (b : List Nat) (n : Int) : List Nat :=
  b ++ i32Bytes n

/-- The `event.block` envelope fields the mappers stamp. -/
structure EthBlock where
  number : Int
  timestamp : Int
deriving DecidableEq, Repr

/-- The `event.transaction` envelope field the mappers stamp; the hash is
a byte string. -/
structure EthTransaction where
  hash : List Nat
deriving DecidableEq, Repr

/-- The declared parameters of a `Claimed` event
(policast-market-v-3.ts lines 135-148). -/
structure ClaimedParams where
  marketId : Int
  user : List Nat
  amount : Int
deriving DecidableEq, Repr

/-- A decoded `Claimed` event with its envelope. -/
structure ClaimedEvent where
  params : ClaimedParams
  transaction : EthTransaction
  block : EthBlock
  logIndex : Int
deriving DecidableEq, Repr

/-- The `Claimed` entity row of the subgraph schema. -/
structure ClaimedEntity where
  id : List Nat
  marketId : Int
  user : List Nat
  amount : Int
  blockNumber : Int
  blockTimestamp : Int
  transactionHash : List Nat
deriving DecidableEq, Repr

/-- `handleClaimed` (policast-market-v-3.ts lines 135-148): one row keyed
by `transaction.hash.concatI32(logIndex.toI32())`, parameters copied
verbatim, envelope stamped. -/
def handleClaimed (event : ClaimedEvent) : ClaimedEntity :=
  { id := concatI32 event.transaction.hash (toI32 event.logIndex)
    marketId := event.params.marketId
    user := event.params.user
    amount := event.params.amount
    blockNumber := event.block.number
    blockTimestamp := event.block.timestamp
    transactionHash := event.transaction.hash }

/-- The declared parameters of an `AdminLiquidityWithdrawn` event
(policast-market-v-3.ts lines 68-83). -/
structure AdminLiquidityWithdrawnParams where
  marketId : Int
  creator : List Nat
  amount : Int
deriving DecidableEq, Repr

/-- A decoded `AdminLiquidityWithdrawn` event with its envelope. -/
structure AdminLiquidityWithdrawnEvent where
  params : AdminLiquidityWithdrawnParams
  transaction : EthTransaction
  block : EthBlock
  logIndex : Int
deriving DecidableEq, Repr

/-- The `AdminLiquidityWithdrawn` entity row of the subgraph schema. -/
structure AdminLiquidityWithdrawnEntity where
  id : List Nat
  marketId : Int
  creator : List Nat
  amount : Int
  blockNumber : Int
  blockTimestamp : Int
  transactionHash : List Nat
deriving DecidableEq, Repr

/-- `handleAdminLiquidityWithdrawn` (policast-market-v-3.ts lines 68-83). -/
def handleAdminLiquidityWithdrawn (event : AdminLiquidityWithdrawnEvent) :
    AdminLiquidityWithdrawnEntity :=
  { id := concatI32 event.transaction.hash (toI32 event.logIndex)
    marketId := event.params.marketId
    creator := event.params.creator
    amount := event.params.amount
    blockNumber := event.block.number
    blockTimestamp := event.block.timestamp
    transactionHash := event.transaction.hash }

/-! ## Auxiliary definitions used by the theorem statements -/

/-- All address strings appearing in the decoded event args handed to the
previewer's participant extraction. -/
def eventAddresses (tr : List TradeEventArgs) (fr : List FreeClaimArgs) :
    List String :=
  tr.flatMap (fun e => e.buyer.toList ++ e.seller.toList)
    ++ fr.flatMap (fun e => e.user.toList)

/-- Invariant of the participant accumulator: no duplicates, every entry
already lowercased, the zero address absent, and every entry the
lowercasing of some event address drawn from `S`. -/
def ParticipantInv (S acc : List String) : Prop :=
  acc.Nodup
    ∧ (∀ p ∈ acc, lowerStr p = p)
    ∧ zeroAddress ∉ acc
    ∧ ∀ p ∈ acc, ∃ s ∈ S, p = lowerStr s

/-- Following the claim's words for the analytics price history: the
running cumulative option-A volume over all buckets up to and including
bucket `i` of the sorted daily list. Stated from the spec, to be compared
with the source's scan. -/
def specRunningA (l : List (Int × DailyData)) (i : Nat) : ℚ :=
  ((l.take (i + 1)).map (fun p => p.2.optionAVolume)).sum

/-- Following the claim's words: the running cumulative option-B volume up
to and including bucket `i`. -/
def specRunningB (l : List (Int × DailyData)) (i : Nat) : ℚ :=
  ((l.take (i + 1)).map (fun p => p.2.optionBVolume)).sum

/-- Following the claim's words: the share `runningX / runningTotal`, with
the route's one-half default when no volume has been seen. -/
def runningShare (x y : ℚ) : ℚ :=
  if x + y > 0 then x / (x + y) else 1 / 2


/-- Concrete market-info fixture used by the C1 witness. -/
def c1FixtureInfo : MarketInfo :=
  ⟨"q", "", 0, 0, 2, true, false, 0, false, 0, "0xCc"⟩

/-- Concrete free-market tuple of the spec's worked example
(100 participants max, 5 tokens each, 40 joined, pool not withdrawn). -/
def c1FixtureFree : FreeMarketInfo := ⟨100, 5, 40, 500, false⟩

/-- Concrete per-market contract state used by the C1 witness. -/
def c1Fixture : MarketData :=
  { info := some c1FixtureInfo, financials := none,
    freeMarketInfo := some c1FixtureFree, lpInfo := none }

/-- Concrete resolved, non-disputed market-info fixture used by the
preview witnesses. -/
def previewFixtureInfo : MarketInfo :=
  ⟨"q", "", 0, 0, 2, true, false, 0, false, 0, "0xc"⟩

/-- Concrete one-event list used by the C5 witness. -/
def c5FixtureEvent : MarketEvent :=
  ⟨0, 0, AnalyticsEventType.sharesPurchased, true, 7, "0xa"⟩

/-! ## Helper lemmas -/

theorem char_eq_of_toNat {a b : Char} (h : a.toNat = b.toNat) : a = b :=
  Char.ext (UInt32.toNat.inj h)

theorem char_toNat_ofNat (n : Nat) (h : n < 55296) : (Char.ofNat n).toNat = n := by
  unfold Char.ofNat
  rw [dif_pos (Or.inl h)]
  unfold Char.ofNatAux
  simp [Char.toNat, UInt32.toNat, BitVec.toNat_ofNatLt]

theorem lowerChar_toNat (c : Char) :
    (lowerChar c).toNat =
      if 65 ≤ c.toNat ∧ c.toNat ≤ 90 then c.toNat + 32 else c.toNat := by
  unfold lowerChar
  by_cases h : 'A' ≤ c ∧ c ≤ 'Z'
  · have h65 : 65 ≤ c.toNat := h.1
    have h90 : c.toNat ≤ 90 := h.2
    rw [if_pos h, if_pos ⟨h65, h90⟩]
    exact char_toNat_ofNat _ (by omega)
  · have hn : ¬(65 ≤ c.toNat ∧ c.toNat ≤ 90) := by
      intro hc
      exact h ⟨hc.1, hc.2⟩
    rw [if_neg h, if_neg hn]

theorem lowerChar_lowerChar (c : Char) : lowerChar (lowerChar c) = lowerChar c := by
  apply char_eq_of_toNat
  rw [lowerChar_toNat (lowerChar c), lowerChar_toNat c]
  by_cases h : 65 ≤ c.toNat ∧ c.toNat ≤ 90
  · rw [if_pos h, if_neg (by omega)]
  · rw [if_neg h, if_neg h]

theorem lowerStr_lowerStr (s : String) : lowerStr (lowerStr s) = lowerStr s := by
  unfold lowerStr
  simp only [List.map_map]
  have hf : lowerChar ∘ lowerChar = lowerChar := funext lowerChar_lowerChar
  rw [hf]

theorem lowerChar_eq_digit_zero {c : Char} (h : lowerChar c = '0') : c = '0' := by
  have ht := congrArg Char.toNat h
  rw [lowerChar_toNat c] at ht
  by_cases hb : 65 ≤ c.toNat ∧ c.toNat ≤ 90
  · rw [if_pos hb] at ht
    have : ('0' : Char).toNat = 48 := by decide
    omega
  · rw [if_neg hb] at ht
    exact char_eq_of_toNat ht

theorem map_lowerChar_replicate {l : List Char} {n : Nat}
    (h : l.map lowerChar = List.replicate n '0') : l = List.replicate n '0' := by
  rw [List.eq_replicate_iff]
  constructor
  · simpa using congrArg List.length h
  · intro b hb
    have hmem := List.mem_map_of_mem lowerChar hb
    rw [h] at hmem
    exact lowerChar_eq_digit_zero (List.eq_of_mem_replicate hmem)

theorem zeroAddress_data : zeroAddress.data = '0' :: 'x' :: List.replicate 40 '0' := by
  decide

theorem lowerStr_eq_zeroAddress {s : String} (hs : addrShaped s)
    (h : lowerStr s = zeroAddress) : s = zeroAddress := by
  have hd : s.data.map lowerChar = zeroAddress.data := congrArg String.data h
  rw [zeroAddress_data] at hd
  apply String.ext
  rw [zeroAddress_data]
  have htake : s.data.take 2 = ['0', 'x'] := hs
  cases hl : s.data with
  | nil => rw [hl] at hd; exact absurd hd (by simp)
  | cons c0 t =>
    cases t with
    | nil => rw [hl] at hd; exact absurd hd (by simp)
    | cons c1 rest =>
      rw [hl] at hd htake
      rw [List.map_cons, List.map_cons] at hd
      simp only [List.cons.injEq] at hd
      simp only [List.take_succ_cons, List.take_zero, List.cons.injEq, and_true] at htake
      rw [htake.1, htake.2, map_lowerChar_replicate hd.2.2]

theorem round3_nonneg {a : ℚ} (h0 : 0 ≤ a) : 0 ≤ round3 a := by
  unfold round3 jsRound
  apply div_nonneg _ (by norm_num)
  have hfl : (0 : ℤ) ≤ ⌊a * 1000 + 1 / 2⌋ := by
    apply Int.le_floor.mpr
    push_cast
    linarith
  exact_mod_cast hfl

theorem round3_le_one {a : ℚ} (h1 : a ≤ 1) : round3 a ≤ 1 := by
  unfold round3 jsRound
  rw [div_le_one (by norm_num : (0:ℚ) < 1000)]
  have hfl : ⌊a * 1000 + 1 / 2⌋ < 1001 := by
    apply Int.floor_lt.mpr
    push_cast
    linarith
  have : ⌊a * 1000 + 1 / 2⌋ ≤ 1000 := by omega
  exact_mod_cast this

theorem round3_pair_sum {a b : ℚ} (hab : a + b = 1) :
    |round3 a + round3 b - 1| ≤ 1 / 1000 := by
  unfold round3 jsRound
  have hb : b * 1000 + 1 / 2 = (1001 : ℚ) - (a * 1000 + 1 / 2) := by
    have : b = 1 - a := by linarith
    rw [this]; ring
  rw [hb]
  have hfloor : ⌊(1001 : ℚ) - (a * 1000 + 1 / 2)⌋ = 1001 - ⌈a * 1000 + 1 / 2⌉ := by
    rw [sub_eq_add_neg, show ((1001:ℚ)) = ((1001 : ℤ) : ℚ) by norm_num,
      Int.floor_int_add, Int.floor_neg]
    ring
  rw [hfloor]
  have h1 := Int.floor_le_ceil (a * 1000 + 1 / 2)
  have h2 := Int.ceil_le_floor_add_one (a * 1000 + 1 / 2)
  have key : (⌊a * 1000 + 1 / 2⌋ : ℚ) / 1000 + ((1001 - ⌈a * 1000 + 1 / 2⌉ : ℤ) : ℚ) / 1000 - 1
      = ((1 - (⌈a * 1000 + 1 / 2⌉ - ⌊a * 1000 + 1 / 2⌋) : ℤ) : ℚ) / 1000 := by
    push_cast
    ring
  rw [key]
  rcases (by omega : ⌈a * 1000 + 1 / 2⌉ - ⌊a * 1000 + 1 / 2⌋ = 0 ∨
      ⌈a * 1000 + 1 / 2⌉ - ⌊a * 1000 + 1 / 2⌋ = 1) with h | h
  · rw [h]
    norm_num [abs_le]
  · rw [h]
    norm_num

/-! ## Claim C8 -/

/-- C8: for every valid event payload, the event-to-entity mapper
(`handleClaimed`, `handleAdminLiquidityWithdrawn`) produces exactly one
row whose identifier is the transaction hash with the 4-byte log index
appended, with every declared event parameter copied verbatim into the
matching field and `blockNumber`, `blockTimestamp`, `transactionHash`
stamped from the envelope; invoking the mapper twice on the same event
yields the same row (the mapper is a deterministic pure function, so the
keyed insert is idempotent). -/
theorem c8_mapper_deterministic_row (e : ClaimedEvent)
    (e2 : AdminLiquidityWithdrawnEvent) :
    ((handleClaimed e).id = e.transaction.hash ++ i32Bytes (toI32 e.logIndex)
      ∧ (i32Bytes (toI32 e.logIndex)).length = 4
      ∧ (handleClaimed e).marketId = e.params.marketId
      ∧ (handleClaimed e).user = e.params.user
      ∧ (handleClaimed e).amount = e.params.amount
      ∧ (handleClaimed e).blockNumber = e.block.number
      ∧ (handleClaimed e).blockTimestamp = e.block.timestamp
      ∧ (handleClaimed e).transactionHash = e.transaction.hash
      ∧ handleClaimed e = handleClaimed e)
    ∧ ((handleAdminLiquidityWithdrawn e2).id
          = e2.transaction.hash ++ i32Bytes (toI32 e2.logIndex)
      ∧ (i32Bytes (toI32 e2.logIndex)).length = 4
      ∧ (handleAdminLiquidityWithdrawn e2).marketId = e2.params.marketId
      ∧ (handleAdminLiquidityWithdrawn e2).creator = e2.params.creator
      ∧ (handleAdminLiquidityWithdrawn e2).amount = e2.params.amount
      ∧ (handleAdminLiquidityWithdrawn e2).blockNumber = e2.block.number
      ∧ (handleAdminLiquidityWithdrawn e2).blockTimestamp = e2.block.timestamp
      ∧ (handleAdminLiquidityWithdrawn e2).transactionHash = e2.transaction.hash
      ∧ handleAdminLiquidityWithdrawn e2 = handleAdminLiquidityWithdrawn e2) := by
  exact ⟨⟨rfl, rfl, rfl, rfl, rfl, rfl, rfl, rfl, rfl⟩,
    ⟨rfl, rfl, rfl, rfl, rfl, rfl, rfl, rfl, rfl⟩⟩

/-! ## Claim C1 -/

theorem mem_prizePoolCandidates {marketId : Nat} {q : String} {resolved : Bool}
    {m : MarketData} {w : AdminWithdrawal}
    (hw : w ∈ prizePoolCandidates marketId q resolved m) :
    checkIfFreeMarket m = true ∧ resolved = true
      ∧ 0 < getUnusedPrizePool m ∧ w.amount = getUnusedPrizePool m
      ∧ w.type = WithdrawalType.prizePool ∧ w.marketId = marketId := by
  unfold prizePoolCandidates at hw
  split at hw
  · next hcond =>
    dsimp only at hw
    split at hw
    · next hpos =>
      rw [List.mem_singleton] at hw
      subst hw
      exact ⟨hcond.1, hcond.2, hpos, rfl, rfl, rfl⟩
    · exact absurd hw (List.not_mem_nil w)
  · exact absurd hw (List.not_mem_nil w)

theorem mem_adminLiquidityCandidates {marketId : Nat} {q : String}
    {m : MarketData} {w : AdminWithdrawal}
    (hw : w ∈ adminLiquidityCandidates marketId q m) :
    w.type = WithdrawalType.adminLiquidity := by
  unfold adminLiquidityCandidates at hw
  split at hw
  · exact absurd hw (List.not_mem_nil w)
  · split at hw
    · rw [List.mem_singleton] at hw
      subst hw
      rfl
    · exact absurd hw (List.not_mem_nil w)

theorem mem_lpRewardsCandidates {marketId : Nat} {q : String}
    {m : MarketData} {w : AdminWithdrawal}
    (hw : w ∈ lpRewardsCandidates marketId q m) :
    w.type = WithdrawalType.lpRewards := by
  unfold lpRewardsCandidates at hw
  split at hw
  · exact absurd hw (List.not_mem_nil w)
  · split at hw
    · rw [List.mem_singleton] at hw
      subst hw
      rfl
    · exact absurd hw (List.not_mem_nil w)

/-- C1 (counterexample): the unused-prize-pool amount computed by the
scanner does not always equal
`maxParticipants*tokensPerParticipant - currentParticipants*tokensPerParticipant`
for a free market with `prizePoolWithdrawn = false`: with the info tuple
`(maxParticipants, tokensPerParticipant, currentParticipants) = (0, 5, 1)`
the formula gives `-5` while `getUnusedPrizePool` clamps the result to `0`. -/
theorem c1_counterexample :
    let m : MarketData :=
      { info := none, financials := none, lpInfo := none,
        freeMarketInfo := some
          { maxParticipants := 0, tokensPerParticipant := 5,
            currentParticipants := 1, totalPrizePool := 0,
            prizePoolWithdrawn := false } }
    getUnusedPrizePool m = 0
      ∧ (0 : Int) * 5 - 1 * 5 = -5
      ∧ ¬(getUnusedPrizePool m = (0 : Int) * 5 - 1 * 5) := by
  exact ⟨rfl, rfl, by decide⟩

/-- C1 (amended): for every free market whose info tuple has
`prizePoolWithdrawn = false`, the unused-prize-pool amount computed by the
scanner equals `maxParticipants*tokensPerParticipant -
currentParticipants*tokensPerParticipant` clamped to zero from below (so
it equals the formula itself whenever the formula is nonnegative, e.g.
100, 5, 40 gives 300 base units); and a prizePool withdrawal candidate is
added for the caller only when the caller is the market creator, the
market is resolved, the market is a free market, the formula's value is
strictly positive, and the pool is not already withdrawn — and then the
candidate's amount is exactly the formula's value. -/
theorem c1_unused_prize_pool (m : MarketData) (fm : FreeMarketInfo)
    (user : String) (marketId : Nat)
    (hfm : m.freeMarketInfo = some fm) :
    (fm.prizePoolWithdrawn = false →
      getUnusedPrizePool m =
        max (fm.maxParticipants * fm.tokensPerParticipant -
          fm.currentParticipants * fm.tokensPerParticipant) 0)
    ∧ ∀ w ∈ checkMarketForAdmin user marketId m,
        w.type = WithdrawalType.prizePool →
        ∃ mi, m.info = some mi
          ∧ lowerStr mi.creator = lowerStr user
          ∧ mi.resolved = true
          ∧ checkIfFreeMarket m = true
          ∧ fm.prizePoolWithdrawn = false
          ∧ 0 < fm.maxParticipants * fm.tokensPerParticipant -
              fm.currentParticipants * fm.tokensPerParticipant
          ∧ w.amount = fm.maxParticipants * fm.tokensPerParticipant -
              fm.currentParticipants * fm.tokensPerParticipant := by
  have hclamp : fm.prizePoolWithdrawn = false →
      getUnusedPrizePool m =
        max (fm.maxParticipants * fm.tokensPerParticipant -
          fm.currentParticipants * fm.tokensPerParticipant) 0 := by
    intro hwd
    unfold getUnusedPrizePool
    rw [hfm]
    simp only [hwd, Bool.false_eq_true, if_false]
    split
    · next hpos => omega
    · next hpos => omega
  refine ⟨hclamp, ?_⟩
  intro w hw htype
  unfold checkMarketForAdmin at hw
  rcases hinfo : m.info with _ | mi
  · rw [hinfo] at hw
    exact absurd hw (List.not_mem_nil w)
  · rw [hinfo] at hw
    rcases List.mem_append.mp hw with hw1 | hw2
    · by_cases hc : lowerStr mi.creator = lowerStr user
      · rw [if_pos hc] at hw1
        rcases List.mem_append.mp hw1 with hwa | hwp
        · exact absurd (mem_adminLiquidityCandidates hwa) (by rw [htype]; decide)
        · obtain ⟨hfree, hres, hpos, hamount, -, -⟩ := mem_prizePoolCandidates hwp
          have hwd : fm.prizePoolWithdrawn = false := by
            by_contra hwd
            have hwd2 : fm.prizePoolWithdrawn = true := by
              cases h : fm.prizePoolWithdrawn
              · exact absurd h hwd
              · rfl
            have : getUnusedPrizePool m = 0 := by
              unfold getUnusedPrizePool
              rw [hfm]
              simp [hwd2]
            omega
          have hval : getUnusedPrizePool m =
              max (fm.maxParticipants * fm.tokensPerParticipant -
                fm.currentParticipants * fm.tokensPerParticipant) 0 := hclamp hwd
          refine ⟨mi, rfl, hc, hres, hfree, hwd, ?_, ?_⟩
          · omega
          · omega
      · rw [if_neg hc] at hw1
        exact absurd hw1 (List.not_mem_nil w)
    · exact absurd (mem_lpRewardsCandidates hw2) (by rw [htype]; decide)

/-- Concrete check of C1's amended statement at the spec's example tuple
`(100, 5, 40, withdrawn := false)`: the computed amount is 300 and a
prizePool candidate in the scan output carries exactly that amount. -/
theorem c1_unused_prize_pool_witness :
    c1Fixture.freeMarketInfo = some c1FixtureFree
    ∧ getUnusedPrizePool c1Fixture = 300
    ∧ ((c1FixtureFree.prizePoolWithdrawn = false →
        getUnusedPrizePool c1Fixture =
          max (c1FixtureFree.maxParticipants * c1FixtureFree.tokensPerParticipant -
            c1FixtureFree.currentParticipants * c1FixtureFree.tokensPerParticipant) 0)
      ∧ ∀ w ∈ checkMarketForAdmin "0xcC" 3 c1Fixture,
          w.type = WithdrawalType.prizePool →
          ∃ mi, c1Fixture.info = some mi
            ∧ lowerStr mi.creator = lowerStr "0xcC"
            ∧ mi.resolved = true
            ∧ checkIfFreeMarket c1Fixture = true
            ∧ c1FixtureFree.prizePoolWithdrawn = false
            ∧ 0 < c1FixtureFree.maxParticipants * c1FixtureFree.tokensPerParticipant -
                c1FixtureFree.currentParticipants * c1FixtureFree.tokensPerParticipant
            ∧ w.amount = c1FixtureFree.maxParticipants * c1FixtureFree.tokensPerParticipant -
                c1FixtureFree.currentParticipants * c1FixtureFree.tokensPerParticipant) :=
  ⟨rfl, rfl, c1_unused_prize_pool c1Fixture c1FixtureFree "0xcC" 3 rfl⟩

/-! ## Claim C4 -/

/-- C4: for every user address, if the contract reports `marketCount = 0`,
the admin-withdrawal scan returns an empty withdrawal list without
performing any per-market contract reads, and the endpoint responds 200
with `totalCount = 0` and all category totals equal to `"0"`. -/
theorem c4_empty_market_count (user : String) (env : ScanEnv)
    (hu : user ≠ "") (h : env.marketCount = Except.ok 0) :
    discoverAdminWithdrawals user env = { withdrawals := [], perMarketReads := 0 }
    ∧ adminAutoDiscoverPost (Except.ok { userAddress := some user }) env =
      { status := 200, error := none,
        wAdminLiquidity := [], wPrizePool := [], wLpRewards := [],
        totals := some { adminLiquidity := "0", prizePool := "0", lpRewards := "0", total := "0" },
        totalCount := some 0 } := by
  have h1 : discoverAdminWithdrawals user env =
      { withdrawals := [], perMarketReads := 0 } := by
    unfold discoverAdminWithdrawals
    rw [h]
    rfl
  refine ⟨h1, ?_⟩
  simp only [adminAutoDiscoverPost, if_neg hu, h1]
  rfl

/-- Concrete check of C4 at a contract with zero markets. -/
theorem c4_empty_market_count_witness :
    ("0xabc" ≠ ""
      ∧ (⟨Except.ok 0, fun _ => ⟨none, none, none, none⟩⟩ : ScanEnv).marketCount
          = Except.ok 0)
    ∧ (discoverAdminWithdrawals "0xabc"
          ⟨Except.ok 0, fun _ => ⟨none, none, none, none⟩⟩
        = { withdrawals := [], perMarketReads := 0 }
      ∧ adminAutoDiscoverPost (Except.ok { userAddress := some "0xabc" })
          ⟨Except.ok 0, fun _ => ⟨none, none, none, none⟩⟩ =
        { status := 200, error := none,
          wAdminLiquidity := [], wPrizePool := [], wLpRewards := [],
          totals := some { adminLiquidity := "0", prizePool := "0", lpRewards := "0", total := "0" },
          totalCount := some 0 }) :=
  ⟨⟨by decide, rfl⟩,
    c4_empty_market_count "0xabc" ⟨Except.ok 0, fun _ => ⟨none, none, none, none⟩⟩
      (by decide) rfl⟩

/-! ## Claim C9 -/

/-- C9 (counterexample): an upstream RPC failure during the
admin-withdrawal scan does not yield a 500 error response: the scan's
catch converts the failure into an empty list and the endpoint responds
200 with `totalCount = 0`. -/
theorem c9_counterexample :
    let env : ScanEnv := ⟨Except.error (), fun _ => ⟨none, none, none, none⟩⟩
    (adminAutoDiscoverPost (Except.ok { userAddress := some "0xabc" }) env).status = 200
    ∧ (adminAutoDiscoverPost (Except.ok { userAddress := some "0xabc" }) env).totalCount
        = some 0
    ∧ (adminAutoDiscoverPost (Except.ok { userAddress := some "0xabc" }) env).status ≠ 500 := by
  exact ⟨rfl, rfl, by decide⟩

/-- C9 (amended): each endpoint returns 400 when its required parameter is
missing (`userAddress` for admin-auto-discover, `marketId` for the
preview and for analytics); failures that escape to a top-level handler
yield 500 (a malformed request body for the two POST routes, a failed
market-info read for the preview); but an upstream RPC failure during the
admin-withdrawal scan is caught inside the scan and produces a successful
200 response with `totalCount = 0`, and the analytics GET never returns
500 for a present marketId (failures degrade to a fallback payload). -/
theorem c9_error_statuses :
    (∀ env, (adminAutoDiscoverPost (Except.ok { userAddress := none }) env).status = 400)
    ∧ (∀ env, (autoPreviewPost (Except.ok { marketId := none }) env).response.status = 400)
    ∧ (∀ tr env, (analyticsGet none tr env).status = 400)
    ∧ (∀ (user : String) (env : ScanEnv), user ≠ "" →
        env.marketCount = Except.error () →
        (adminAutoDiscoverPost (Except.ok { userAddress := some user }) env).status = 200
        ∧ (adminAutoDiscoverPost (Except.ok { userAddress := some user }) env).totalCount
            = some 0)
    ∧ (∀ env, (adminAutoDiscoverPost (Except.error ()) env).status = 500)
    ∧ (∀ env, (autoPreviewPost (Except.error ()) env).response.status = 500)
    ∧ (∀ (mid : Int) (env : PreviewEnv), 0 < mid →
        env.marketInfo = Except.error () →
        (autoPreviewPost (Except.ok { marketId := some mid }) env).response.status = 500)
    ∧ (∀ (s : String) tr env, s ≠ "" → (analyticsGet (some s) tr env).status = 200) := by
  refine ⟨fun env => rfl, fun env => rfl, fun tr env => rfl, ?_, fun env => rfl,
    fun env => rfl, ?_, ?_⟩
  · intro user env hu h
    have h1 : discoverAdminWithdrawals user env =
        { withdrawals := [], perMarketReads := 0 } := by
      unfold discoverAdminWithdrawals
      rw [h]
    constructor
    · simp only [adminAutoDiscoverPost, if_neg hu, h1]
    · simp only [adminAutoDiscoverPost, if_neg hu, h1]
      rfl
  · intro mid env hmid h
    simp only [autoPreviewPost, if_neg (by omega : ¬mid = 0),
      if_neg (by omega : ¬mid < 0), h]
    rfl
  · intro s tr env hs
    simp only [analyticsGet, if_neg hs]
    cases hc : env.cache with
    | none => rfl
    | some c =>
      dsimp only
      split
      · rfl
      · rfl

/-- Concrete check of C9's amended statement: each branch evaluated at an
explicit input. -/
theorem c9_error_statuses_witness :
    (adminAutoDiscoverPost (Except.ok { userAddress := none })
        ⟨Except.ok 0, fun _ => ⟨none, none, none, none⟩⟩).status = 400
    ∧ (autoPreviewPost (Except.ok { marketId := none })
        ⟨Except.ok ⟨"q", "", 0, 0, 2, true, false, 0, false, 0, "0xc"⟩, [], [],
          fun _ => ([], [])⟩).response.status = 400
    ∧ (analyticsGet none none ⟨[], none, fun _ => 0, 0⟩).status = 400
    ∧ ("0xabc" ≠ ""
        ∧ (adminAutoDiscoverPost (Except.ok { userAddress := some "0xabc" })
            ⟨Except.error (), fun _ => ⟨none, none, none, none⟩⟩).totalCount = some 0)
    ∧ (adminAutoDiscoverPost (Except.error ())
        ⟨Except.ok 0, fun _ => ⟨none, none, none, none⟩⟩).status = 500
    ∧ (autoPreviewPost (Except.error ())
        ⟨Except.error (), [], [], fun _ => ([], [])⟩).response.status = 500
    ∧ ((0 : Int) < 7
        ∧ (autoPreviewPost (Except.ok { marketId := some 7 })
            ⟨Except.error (), [], [], fun _ => ([], [])⟩).response.status = 500)
    ∧ ("m" ≠ ""
        ∧ (analyticsGet (some "m") none ⟨[], none, fun _ => 0, 0⟩).status = 200) :=
  ⟨c9_error_statuses.1 _,
    c9_error_statuses.2.1 _,
    c9_error_statuses.2.2.1 none _,
    ⟨by decide, (c9_error_statuses.2.2.2.1 "0xabc" _ (by decide) rfl).2⟩,
    c9_error_statuses.2.2.2.2.1 _,
    c9_error_statuses.2.2.2.2.2.1 _,
    ⟨by norm_num, c9_error_statuses.2.2.2.2.2.2.1 7 _ (by norm_num) rfl⟩,
    ⟨by decide, c9_error_statuses.2.2.2.2.2.2.2 "m" none _ (by decide)⟩⟩

/-! ## Claim C3 -/

/-- C3: the batch-distribution preview checks its preconditions in order,
each short-circuiting with an explanatory 200 result: not resolved (no
event fetch), else disputed (no event fetch), else no trade and no
free-token-claim events (events fetched, but the eligibility check is
never called). -/
theorem c3_preview_short_circuits (env : PreviewEnv) (mid : Int)
    (mi : MarketInfo) (hmid : 0 < mid) (hmi : env.marketInfo = Except.ok mi) :
    (mi.resolved = false →
      autoPreviewPost (Except.ok { marketId := some mid }) env =
        ⟨emptyPreviewResponse 200 none (some 0)
          (some "Market is not resolved yet. Cannot distribute winnings."),
          false, false, false⟩)
    ∧ (mi.resolved = true → mi.disputed = true →
        autoPreviewPost (Except.ok { marketId := some mid }) env =
          ⟨emptyPreviewResponse 200 none (some 0)
            (some "Market is disputed. Cannot distribute winnings."),
            false, false, false⟩)
    ∧ (mi.resolved = true → mi.disputed = false →
        env.tradeEvents = [] → env.freeTokenEvents = [] →
        autoPreviewPost (Except.ok { marketId := some mid }) env =
          ⟨emptyPreviewResponse 200 none (some 0)
            (some "No trade or free token events found for this market. This could mean the market has no participants yet."),
            true, true, false⟩) := by
  have hne0 : ¬mid = 0 := by omega
  have hneg : ¬mid < 0 := by omega
  refine ⟨?_, ?_, ?_⟩
  · intro hres
    simp [autoPreviewPost, if_neg hne0, if_neg hneg, hmi, hres]
  · intro hres hdis
    simp [autoPreviewPost, if_neg hne0, if_neg hneg, hmi, hres, hdis]
  · intro hres hdis htr hfr
    simp [autoPreviewPost, if_neg hne0, if_neg hneg, hmi, hres, hdis, htr, hfr]

/-- Concrete check of C3: each short-circuit evaluated at an explicit
market and environment. -/
theorem c3_preview_short_circuits_witness :
    ((0 : Int) < 1
      ∧ (⟨Except.ok ⟨"q", "", 0, 0, 2, false, false, 0, false, 0, "0xc"⟩, [], [],
          fun _ => ([], [])⟩ : PreviewEnv).marketInfo
        = Except.ok ⟨"q", "", 0, 0, 2, false, false, 0, false, 0, "0xc"⟩)
    ∧ (autoPreviewPost (Except.ok { marketId := some 1 })
        ⟨Except.ok ⟨"q", "", 0, 0, 2, false, false, 0, false, 0, "0xc"⟩, [], [],
          fun _ => ([], [])⟩ =
        ⟨emptyPreviewResponse 200 none (some 0)
          (some "Market is not resolved yet. Cannot distribute winnings."),
          false, false, false⟩)
    ∧ (autoPreviewPost (Except.ok { marketId := some 1 })
        ⟨Except.ok ⟨"q", "", 0, 0, 2, true, true, 0, false, 0, "0xc"⟩, [], [],
          fun _ => ([], [])⟩ =
        ⟨emptyPreviewResponse 200 none (some 0)
          (some "Market is disputed. Cannot distribute winnings."),
          false, false, false⟩)
    ∧ (autoPreviewPost (Except.ok { marketId := some 1 })
        ⟨Except.ok previewFixtureInfo, [], [], fun _ => ([], [])⟩ =
        ⟨emptyPreviewResponse 200 none (some 0)
          (some "No trade or free token events found for this market. This could mean the market has no participants yet."),
          true, true, false⟩) :=
  ⟨⟨by norm_num, rfl⟩,
    (c3_preview_short_circuits
      ⟨Except.ok ⟨"q", "", 0, 0, 2, false, false, 0, false, 0, "0xc"⟩, [], [],
        fun _ => ([], [])⟩ 1 _ (by norm_num) rfl).1 rfl,
    ((c3_preview_short_circuits
      ⟨Except.ok ⟨"q", "", 0, 0, 2, true, true, 0, false, 0, "0xc"⟩, [], [],
        fun _ => ([], [])⟩ 1 _ (by norm_num) rfl).2.1 rfl rfl),
    ((c3_preview_short_circuits
      ⟨Except.ok previewFixtureInfo, [], [], fun _ => ([], [])⟩ 1 _
        (by norm_num) rfl).2.2 rfl rfl rfl rfl)⟩

/-! ## Claim C2 -/

/-- C2: for a resolved, non-disputed market whose event log contains
exactly one trade-execution event with distinct non-zero buyer `A` and
seller `B` (distinct as addresses, i.e. after case normalization), and
whose eligibility check returns `([A], [10^18])`, the preview reports
`totalParticipants = 2`, `eligibleCount = 1`, and `amounts = ["1"]`
(the amount divided by the 10^18 base-unit scale and serialized). -/
theorem c2_preview_report (A B : String) (mid : Int) (mi : MarketInfo)
    (f : List String → List String × List Int)
    (hmid : 0 < mid)
    (hres : mi.resolved = true) (hdis : mi.disputed = false)
    (hA0 : A ≠ "") (hB0 : B ≠ "")
    (hAz : A ≠ zeroAddress) (hBz : B ≠ zeroAddress)
    (hAB : lowerStr A ≠ lowerStr B)
    (hf : f [lowerStr A, lowerStr B] = ([A], [10 ^ 18])) :
    autoPreviewPost (Except.ok { marketId := some mid })
      ⟨Except.ok mi, [⟨some A, some B⟩], [], f⟩ =
    ⟨⟨200, none, [A], ["1"], 2, some 1, none⟩, true, true, true⟩ := by
  have hne0 : ¬mid = 0 := by omega
  have hneg : ¬mid < 0 := by omega
  have hp : extractParticipants [⟨some A, some B⟩] [] = [lowerStr A, lowerStr B] := by
    simp [extractParticipants, addParticipant, hA0, hAz, hB0, hBz, Ne.symm hAB]
  have hfmt : formatAmountWei 1000000000000000000 = "1" := rfl
  simp [autoPreviewPost, if_neg hne0, if_neg hneg, hres, hdis, hp, hf, hfmt]

/-- Concrete check of C2 with buyer `0xAb`, seller `0xBa` and the
eligibility result `(["0xAb"], [10^18])`. -/
theorem c2_preview_report_witness :
    ((0 : Int) < 1
      ∧ previewFixtureInfo.resolved = true
      ∧ previewFixtureInfo.disputed = false
      ∧ "0xAb" ≠ "" ∧ "0xBa" ≠ ""
      ∧ "0xAb" ≠ zeroAddress ∧ "0xBa" ≠ zeroAddress
      ∧ lowerStr "0xAb" ≠ lowerStr "0xBa"
      ∧ (fun _ : List String => (["0xAb"], [(10 : Int) ^ 18]))
          [lowerStr "0xAb", lowerStr "0xBa"] = (["0xAb"], [(10 : Int) ^ 18]))
    ∧ autoPreviewPost (Except.ok { marketId := some 1 })
        ⟨Except.ok previewFixtureInfo, [⟨some "0xAb", some "0xBa"⟩], [],
          fun _ => (["0xAb"], [(10 : Int) ^ 18])⟩ =
      ⟨⟨200, none, ["0xAb"], ["1"], 2, some 1, none⟩, true, true, true⟩ :=
  ⟨⟨by norm_num, rfl, rfl, by decide, by decide, by decide, by decide, by decide, rfl⟩,
    c2_preview_report "0xAb" "0xBa" 1 previewFixtureInfo
      (fun _ => (["0xAb"], [(10 : Int) ^ 18])) (by norm_num) rfl rfl
      (by decide) (by decide) (by decide) (by decide) (by decide) rfl⟩

/-! ## Claim C10 -/

theorem addParticipant_inv {S acc : List String} {a : Option String}
    (hS : ∀ s ∈ S, addrShaped s)
    (ha : ∀ s, a = some s → s ∈ S)
    (h : ParticipantInv S acc) : ParticipantInv S (addParticipant acc a) := by
  obtain ⟨hnd, hlow, hz, hsrc⟩ := h
  cases a with
  | none => exact ⟨hnd, hlow, hz, hsrc⟩
  | some s =>
    unfold addParticipant
    dsimp only
    by_cases h1 : s ≠ "" ∧ s ≠ zeroAddress
    · rw [if_pos h1]
      by_cases h2 : lowerStr s ∈ acc
      · rw [if_pos h2]
        exact ⟨hnd, hlow, hz, hsrc⟩
      · rw [if_neg h2]
        have hsS : s ∈ S := ha s rfl
        refine ⟨?_, ?_, ?_, ?_⟩
        · rw [List.nodup_append]
          refine ⟨hnd, List.nodup_singleton _, ?_⟩
          intro y hy hmem
          rw [List.mem_singleton] at hmem
          subst hmem
          exact h2 hy
        · intro p hp
          rcases List.mem_append.mp hp with hp | hp
          · exact hlow p hp
          · rw [List.mem_singleton] at hp
            subst hp
            exact lowerStr_lowerStr s
        · intro hzmem
          rcases List.mem_append.mp hzmem with hm | hm
          · exact hz hm
          · rw [List.mem_singleton] at hm
            exact h1.2 (lowerStr_eq_zeroAddress (hS s hsS) hm.symm)
        · intro p hp
          rcases List.mem_append.mp hp with hp | hp
          · exact hsrc p hp
          · rw [List.mem_singleton] at hp
            exact ⟨s, hsS, hp⟩
    · rw [if_neg h1]
      exact ⟨hnd, hlow, hz, hsrc⟩

theorem tradeFold_inv {S : List String} (hS : ∀ s ∈ S, addrShaped s)
    (tr : List TradeEventArgs) :
    ∀ acc : List String,
      (∀ e ∈ tr, (∀ s, e.buyer = some s → s ∈ S) ∧ (∀ s, e.seller = some s → s ∈ S)) →
      ParticipantInv S acc →
      ParticipantInv S
        (tr.foldl (fun acc e => addParticipant (addParticipant acc e.buyer) e.seller) acc) := by
  induction tr with
  | nil =>
    intro acc _ h
    exact h
  | cons e rest ih =>
    intro acc htr h
    rw [List.foldl_cons]
    apply ih
    · intro e2 he2
      exact htr e2 (List.mem_cons_of_mem e he2)
    · apply addParticipant_inv hS (htr e (List.mem_cons_self e rest)).2
      exact addParticipant_inv hS (htr e (List.mem_cons_self e rest)).1 h

theorem freeFold_inv {S : List String} (hS : ∀ s ∈ S, addrShaped s)
    (fr : List FreeClaimArgs) :
    ∀ acc : List String,
      (∀ e ∈ fr, ∀ s, e.user = some s → s ∈ S) →
      ParticipantInv S acc →
      ParticipantInv S (fr.foldl (fun acc e => addParticipant acc e.user) acc) := by
  induction fr with
  | nil =>
    intro acc _ h
    exact h
  | cons e rest ih =>
    intro acc hfr h
    rw [List.foldl_cons]
    apply ih
    · intro e2 he2
      exact hfr e2 (List.mem_cons_of_mem e he2)
    · exact addParticipant_inv hS (hfr e (List.mem_cons_self e rest)) h

/-- C10: every participant the previewer extracts is the lowercasing of
some event address, the extracted list has no duplicates (so two events
whose addresses differ only in letter case contribute one participant),
every entry is lowercase-normal, and the zero address never appears
(assuming, as the viem client guarantees, that every event address starts
with the literal prefix "0x"). -/
theorem c10_participants_lowercased (tr : List TradeEventArgs)
    (fr : List FreeClaimArgs)
    (h : ∀ s ∈ eventAddresses tr fr, addrShaped s) :
    (extractParticipants tr fr).Nodup
    ∧ (∀ p ∈ extractParticipants tr fr, lowerStr p = p)
    ∧ zeroAddress ∉ extractParticipants tr fr
    ∧ ∀ p ∈ extractParticipants tr fr, ∃ s ∈ eventAddresses tr fr, p = lowerStr s := by
  have base : ParticipantInv (eventAddresses tr fr) [] := by
    refine ⟨List.nodup_nil, ?_, ?_, ?_⟩
    · intro p hp
      exact absurd hp (List.not_mem_nil p)
    · exact List.not_mem_nil _
    · intro p hp
      exact absurd hp (List.not_mem_nil p)
  have htr : ∀ e ∈ tr, (∀ s, e.buyer = some s → s ∈ eventAddresses tr fr)
      ∧ (∀ s, e.seller = some s → s ∈ eventAddresses tr fr) := by
    intro e he
    constructor
    · intro s hs
      apply List.mem_append_left
      exact List.mem_flatMap.mpr ⟨e, he, by simp [hs]⟩
    · intro s hs
      apply List.mem_append_left
      exact List.mem_flatMap.mpr ⟨e, he, by simp [hs]⟩
  have hfr : ∀ e ∈ fr, ∀ s, e.user = some s → s ∈ eventAddresses tr fr := by
    intro e he s hs
    apply List.mem_append_right
    exact List.mem_flatMap.mpr ⟨e, he, by simp [hs]⟩
  have hinv : ParticipantInv (eventAddresses tr fr) (extractParticipants tr fr) := by
    unfold extractParticipants
    exact freeFold_inv h fr _ hfr (tradeFold_inv h tr [] htr base)
  exact ⟨hinv.1, hinv.2.1, hinv.2.2.1, hinv.2.2.2⟩

/-- Concrete check of C10: a buyer `0xAB` and a seller `0xab` differing
only in case contribute the single participant `0xab`. -/
theorem c10_participants_lowercased_witness :
    (∀ s ∈ eventAddresses [⟨some "0xAB", some "0xab"⟩] [], addrShaped s)
    ∧ (extractParticipants [⟨some "0xAB", some "0xab"⟩] [] = ["0xab"])
    ∧ ((extractParticipants [⟨some "0xAB", some "0xab"⟩] []).Nodup
      ∧ (∀ p ∈ extractParticipants [⟨some "0xAB", some "0xab"⟩] [], lowerStr p = p)
      ∧ zeroAddress ∉ extractParticipants [⟨some "0xAB", some "0xab"⟩] []
      ∧ ∀ p ∈ extractParticipants [⟨some "0xAB", some "0xab"⟩] [],
          ∃ s ∈ eventAddresses [⟨some "0xAB", some "0xab"⟩] [], p = lowerStr s) :=
  ⟨by decide, by decide,
    c10_participants_lowercased [⟨some "0xAB", some "0xab"⟩] [] (by decide)⟩

/-! ## Claim C6 -/

theorem fallbackEntries_length (rand : Nat → ℚ) (now : Int) :
    ∀ (i : Nat) (p : ℚ) (j : Nat), (fallbackEntries rand now i p j).length = i + 1 := by
  intro i
  induction i with
  | zero =>
    intro p j
    rw [fallbackEntries, List.length_singleton]
  | succ k ih =>
    intro p j
    rw [fallbackEntries, List.length_cons, ih]

theorem fallbackStep_shape (rand : Nat → ℚ) (now : Int) (i j : Nat) (p : ℚ) :
    (fallbackStep rand now i j p).1.1.optionA = round3 (fallbackStep rand now i j p).2
    ∧ (fallbackStep rand now i j p).1.1.optionB
        = round3 (1 - (fallbackStep rand now i j p).2)
    ∧ 1 / 20 ≤ (fallbackStep rand now i j p).2
    ∧ (fallbackStep rand now i j p).2 ≤ 19 / 20 := by
  rw [fallbackStep]
  dsimp only
  refine ⟨rfl, rfl, ?_, ?_⟩
  · exact le_trans (by norm_num) (le_max_left _ _)
  · exact max_le (by norm_num) (le_trans (min_le_left _ _) (by norm_num))

theorem fallbackEntries_price_shape (rand : Nat → ℚ) (now : Int) :
    ∀ (i : Nat) (p : ℚ) (j : Nat), ∀ x ∈ fallbackEntries rand now i p j,
      ∃ q : ℚ, 1 / 20 ≤ q ∧ q ≤ 19 / 20
        ∧ x.1.optionA = round3 q ∧ x.1.optionB = round3 (1 - q) := by
  intro i
  induction i with
  | zero =>
    intro p j x hx
    rw [fallbackEntries, List.mem_singleton] at hx
    obtain ⟨ha, hb, h1, h2⟩ := fallbackStep_shape rand now 0 j p
    exact ⟨(fallbackStep rand now 0 j p).2, h1, h2,
      by rw [hx]; exact ha, by rw [hx]; exact hb⟩
  | succ k ih =>
    intro p j x hx
    rw [fallbackEntries] at hx
    rcases List.mem_cons.mp hx with hx | hx
    · obtain ⟨ha, hb, h1, h2⟩ := fallbackStep_shape rand now (k + 1) j p
      exact ⟨(fallbackStep rand now (k + 1) j p).2, h1, h2,
        by rw [hx]; exact ha, by rw [hx]; exact hb⟩
    · exact ih _ _ x hx

/-- C6 (counterexample): the fallback loop `for (let i = 7; i >= 0; i--)`
runs eight times, so the synthetic fallback series has 8 entries, not the
7 the claim states (evaluated at the all-zeros random stream and clock 0). -/
theorem c6_counterexample :
    (generateFallbackAnalytics (fun _ => 0) 0).priceHistory.length ≠ 7
    ∧ (generateFallbackAnalytics (fun _ => 0) 0).priceHistory.length = 8 := by
  exact ⟨by decide, by rfl⟩

/-- C6 (amended): when the event list is empty the analytics aggregator
returns the synthetic fallback series rather than an empty result: an
8-entry price history and an 8-entry volume history of the same
structural shape as real payloads, with every price inside `[0, 1]`. -/
theorem c6_fallback_series (rand : Nat → ℚ) (now : Int) :
    calculateMarketAnalytics [] rand now = generateFallbackAnalytics rand now
    ∧ (generateFallbackAnalytics rand now).priceHistory.length = 8
    ∧ (generateFallbackAnalytics rand now).volumeHistory.length = 8
    ∧ ∀ p ∈ (generateFallbackAnalytics rand now).priceHistory,
        0 ≤ p.optionA ∧ p.optionA ≤ 1 ∧ 0 ≤ p.optionB ∧ p.optionB ≤ 1 := by
  refine ⟨rfl, ?_, ?_, ?_⟩
  · show ((fallbackEntries rand now 7 (1 / 2) 0).map (fun p => p.1)).length = 8
    rw [List.length_map, fallbackEntries_length]
  · show ((fallbackEntries rand now 7 (1 / 2) 0).map (fun p => p.2)).length = 8
    rw [List.length_map, fallbackEntries_length]
  · intro p hp
    have hp2 : p ∈ (fallbackEntries rand now 7 (1 / 2) 0).map (fun p => p.1) := hp
    rw [List.mem_map] at hp2
    obtain ⟨x, hx, hxp⟩ := hp2
    obtain ⟨q, hq1, hq2, hqa, hqb⟩ := fallbackEntries_price_shape rand now 7 (1 / 2) 0 x hx
    subst hxp
    refine ⟨?_, ?_, ?_, ?_⟩
    · rw [hqa]
      exact round3_nonneg (by linarith)
    · rw [hqa]
      exact round3_le_one (by linarith)
    · rw [hqb]
      exact round3_nonneg (by linarith)
    · rw [hqb]
      exact round3_le_one (by linarith)

/-! ## Claim C7 -/

theorem getD_append_pair {α : Type} (l : List α) (a b d : α) :
    (l ++ [a, b]).getD ((l ++ [a, b]).length - 1) d = b
    ∧ (l ++ [a, b]).getD ((l ++ [a, b]).length - 2) d = a := by
  have hlen : (l ++ [a, b]).length = l.length + 2 := by simp
  rw [hlen]
  constructor
  · rw [List.getD_eq_getElem?_getD, show l.length + 2 - 1 = l.length + 1 by omega,
      List.getElem?_append_right (by omega)]
    simp
  · rw [List.getD_eq_getElem?_getD, show l.length + 2 - 2 = l.length by omega,
      List.getElem?_append_right (by omega)]
    simp

/-- C7: with at least two daily buckets (last two being `prev`, `last`),
the 24h volume change is `(last - prev)/prev` for non-zero `prev`, `1`
for a zero-to-positive transition and `0` for zero-to-zero; the 24h price
change is the last bucket's optionA minus the previous bucket's; with
fewer than two buckets both changes are 0; and the analytics payload's
change fields are exactly these functions of its histories. -/
theorem c7_24h_changes :
    (∀ (pre : List VolumeHistoryData) (prev last : VolumeHistoryData),
      (prev.volume ≠ 0 →
        calculateVolumeChange (pre ++ [prev, last])
          = (last.volume - prev.volume) / prev.volume)
      ∧ (prev.volume = 0 → 0 < last.volume →
          calculateVolumeChange (pre ++ [prev, last]) = 1)
      ∧ (prev.volume = 0 → last.volume = 0 →
          calculateVolumeChange (pre ++ [prev, last]) = 0))
    ∧ (∀ (preP : List PriceHistoryData) (prevP lastP : PriceHistoryData),
        calculatePriceChange (preP ++ [prevP, lastP])
          = lastP.optionA - prevP.optionA)
    ∧ (∀ vh, vh.length < 2 → calculateVolumeChange vh = 0)
    ∧ (∀ ph, ph.length < 2 → calculatePriceChange ph = 0)
    ∧ (∀ (events : List MarketEvent) (rand : Nat → ℚ) (now : Int), events ≠ [] →
        (calculateMarketAnalytics events rand now).priceChange24h
          = calculatePriceChange (calculateMarketAnalytics events rand now).priceHistory
        ∧ (calculateMarketAnalytics events rand now).volumeChange24h
          = calculateVolumeChange (calculateMarketAnalytics events rand now).volumeHistory) := by
  refine ⟨?_, ?_, ?_, ?_, ?_⟩
  · intro pre prev last
    have hlen : ¬(pre ++ [prev, last]).length < 2 := by
      simp
    unfold calculateVolumeChange
    rw [if_neg hlen]
    dsimp only
    rw [(getD_append_pair pre prev last _).1, (getD_append_pair pre prev last _).2]
    refine ⟨?_, ?_, ?_⟩
    · intro hprev
      rw [if_neg hprev]
    · intro hprev hlast
      rw [if_pos hprev, if_pos hlast]
    · intro hprev hlast
      rw [if_pos hprev, if_neg (by rw [hlast]; exact lt_irrefl 0)]
  · intro preP prevP lastP
    have hlen : ¬(preP ++ [prevP, lastP]).length < 2 := by
      simp
    unfold calculatePriceChange
    rw [if_neg hlen]
    dsimp only
    rw [(getD_append_pair preP prevP lastP _).1, (getD_append_pair preP prevP lastP _).2]
  · intro vh hvh
    unfold calculateVolumeChange
    rw [if_pos hvh]
  · intro ph hph
    unfold calculatePriceChange
    rw [if_pos hph]
  · intro events rand now hne
    have hlen : ¬events.length = 0 := by
      simpa [List.length_eq_zero] using hne
    constructor
    · simp only [calculateMarketAnalytics, if_neg hlen]
    · simp only [calculateMarketAnalytics, if_neg hlen]

/-- Concrete check of C7: each branch evaluated at explicit buckets. -/
theorem c7_24h_changes_witness :
    ((⟨0, 0, 2, 0⟩ : VolumeHistoryData).volume ≠ 0
      ∧ calculateVolumeChange [⟨0, 0, 2, 0⟩, ⟨0, 0, 3, 0⟩]
          = ((⟨0, 0, 3, 0⟩ : VolumeHistoryData).volume
              - (⟨0, 0, 2, 0⟩ : VolumeHistoryData).volume)
            / (⟨0, 0, 2, 0⟩ : VolumeHistoryData).volume)
    ∧ ((⟨0, 0, 0, 0⟩ : VolumeHistoryData).volume = 0
      ∧ (0 : ℚ) < (⟨0, 0, 5, 0⟩ : VolumeHistoryData).volume
      ∧ calculateVolumeChange [⟨0, 0, 0, 0⟩, ⟨0, 0, 5, 0⟩] = 1)
    ∧ calculateVolumeChange [⟨0, 0, 0, 0⟩, ⟨0, 0, 0, 0⟩] = 0
    ∧ calculatePriceChange [⟨0, 0, 1/4, 3/4, 0, 0⟩, ⟨0, 0, 1/2, 1/2, 0, 0⟩]
        = (⟨0, 0, 1/2, 1/2, 0, 0⟩ : PriceHistoryData).optionA
          - (⟨0, 0, 1/4, 3/4, 0, 0⟩ : PriceHistoryData).optionA
    ∧ ((([] : List VolumeHistoryData).length < 2 ∧ calculateVolumeChange [] = 0)
      ∧ (([] : List PriceHistoryData).length < 2 ∧ calculatePriceChange [] = 0)) :=
  ⟨⟨show (2 : ℚ) ≠ 0 by norm_num,
      (c7_24h_changes.1 [] ⟨0, 0, 2, 0⟩ ⟨0, 0, 3, 0⟩).1 (show (2 : ℚ) ≠ 0 by norm_num)⟩,
    ⟨rfl, show (0 : ℚ) < 5 by norm_num,
      (c7_24h_changes.1 [] ⟨0, 0, 0, 0⟩ ⟨0, 0, 5, 0⟩).2.1 rfl (show (0 : ℚ) < 5 by norm_num)⟩,
    (c7_24h_changes.1 [] ⟨0, 0, 0, 0⟩ ⟨0, 0, 0, 0⟩).2.2 rfl rfl,
    c7_24h_changes.2.1 [] ⟨0, 0, 1/4, 3/4, 0, 0⟩ ⟨0, 0, 1/2, 1/2, 0, 0⟩,
    ⟨⟨by norm_num, c7_24h_changes.2.2.1 [] (by norm_num)⟩,
      ⟨by norm_num, c7_24h_changes.2.2.2.1 [] (by norm_num)⟩⟩⟩

/-! ## Claim C5 -/

theorem applyEvent_nonneg {d : DailyData} {e : MarketEvent} (he : 0 ≤ e.amount)
    (hA : 0 ≤ d.optionAVolume) (hB : 0 ≤ d.optionBVolume) :
    0 ≤ (applyEvent d e).optionAVolume ∧ 0 ≤ (applyEvent d e).optionBVolume := by
  unfold applyEvent
  dsimp only
  split
  · constructor
    · dsimp only
      linarith
    · dsimp only
      linarith
  · constructor
    · dsimp only
      linarith
    · dsimp only
      linarith

theorem updateDaily_nonneg :
    ∀ (l : List (Int × DailyData)) (key : Int) (e : MarketEvent),
      0 ≤ e.amount →
      (∀ x ∈ l, 0 ≤ x.2.optionAVolume ∧ 0 ≤ x.2.optionBVolume) →
      ∀ x ∈ updateDaily l key e, 0 ≤ x.2.optionAVolume ∧ 0 ≤ x.2.optionBVolume := by
  intro l
  induction l with
  | nil =>
    intro key e he _ x hx
    rw [updateDaily, List.mem_singleton] at hx
    subst hx
    exact applyEvent_nonneg he (le_refl 0) (le_refl 0)
  | cons hd tl ih =>
    intro key e he hl x hx
    obtain ⟨k, v⟩ := hd
    rw [updateDaily] at hx
    split at hx
    · rcases List.mem_cons.mp hx with hx | hx
      · subst hx
        have hv := hl (k, v) (List.mem_cons_self _ _)
        exact applyEvent_nonneg he hv.1 hv.2
      · exact hl x (List.mem_cons_of_mem _ hx)
    · rcases List.mem_cons.mp hx with hx | hx
      · subst hx
        exact hl (k, v) (List.mem_cons_self _ _)
      · exact ih key e he (fun y hy => hl y (List.mem_cons_of_mem _ hy)) x hx

theorem buildDailyData_fold_nonneg :
    ∀ (events : List MarketEvent) (acc : List (Int × DailyData)),
      (∀ e ∈ events, 0 ≤ e.amount) →
      (∀ x ∈ acc, 0 ≤ x.2.optionAVolume ∧ 0 ≤ x.2.optionBVolume) →
      ∀ x ∈ events.foldl
          (fun acc e =>
            match e.eventType with
            | AnalyticsEventType.sharesPurchased => updateDaily acc (dateKey e.timestamp) e
            | _ => acc)
          acc,
        0 ≤ x.2.optionAVolume ∧ 0 ≤ x.2.optionBVolume := by
  intro events
  induction events with
  | nil =>
    intro acc _ hacc x hx
    exact hacc x hx
  | cons e rest ih =>
    intro acc hev hacc x hx
    rw [List.foldl_cons] at hx
    apply ih _ (fun y hy => hev y (List.mem_cons_of_mem _ hy)) _ x hx
    cases he : e.eventType
    · dsimp only
      exact updateDaily_nonneg acc (dateKey e.timestamp) e
        (hev e (List.mem_cons_self _ _)) hacc
    · exact hacc
    · exact hacc

theorem buildDailyData_nonneg {events : List MarketEvent}
    (h : ∀ e ∈ events, 0 ≤ e.amount) :
    ∀ x ∈ buildDailyData events, 0 ≤ x.2.optionAVolume ∧ 0 ≤ x.2.optionBVolume := by
  intro x hx
  exact buildDailyData_fold_nonneg events [] h
    (fun y hy => absurd hy (List.not_mem_nil y)) x hx

theorem sortedDaily_nonneg {events : List MarketEvent}
    (h : ∀ e ∈ events, 0 ≤ e.amount) :
    ∀ x ∈ sortedDaily events, 0 ≤ x.2.optionAVolume ∧ 0 ≤ x.2.optionBVolume := by
  intro x hx
  exact buildDailyData_nonneg h x (List.mem_mergeSort.mp hx)

theorem buildPriceHistory_invariant :
    ∀ (l : List (Int × DailyData)) (ra rb : ℚ), 0 ≤ ra → 0 ≤ rb →
      (∀ x ∈ l, 0 ≤ x.2.optionAVolume ∧ 0 ≤ x.2.optionBVolume) →
      ∀ p ∈ buildPriceHistory ra rb l,
        0 ≤ p.optionA ∧ p.optionA ≤ 1 ∧ 0 ≤ p.optionB ∧ p.optionB ≤ 1
          ∧ |p.optionA + p.optionB - 1| ≤ 1 / 1000 := by
  intro l
  induction l with
  | nil =>
    intro ra rb _ _ _ p hp
    exact absurd hp (List.not_mem_nil p)
  | cons hd tl ih =>
    intro ra rb hra hrb hl p hp
    obtain ⟨d, data⟩ := hd
    rw [buildPriceHistory] at hp
    have hdA := (hl (d, data) (List.mem_cons_self _ _)).1
    have hdB := (hl (d, data) (List.mem_cons_self _ _)).2
    rcases List.mem_cons.mp hp with hp | hp
    · subst hp
      dsimp only
      set ra1 := ra + data.optionAVolume with hra1
      set rb1 := rb + data.optionBVolume with hrb1
      have hra1p : 0 ≤ ra1 := by rw [hra1]; linarith
      have hrb1p : 0 ≤ rb1 := by rw [hrb1]; linarith
      by_cases htot : ra1 + rb1 > 0
      · rw [if_pos htot, if_pos htot]
        have h0a : 0 ≤ ra1 / (ra1 + rb1) := div_nonneg hra1p (le_of_lt htot)
        have h1a : ra1 / (ra1 + rb1) ≤ 1 := by
          rw [div_le_one htot]
          linarith
        have h0b : 0 ≤ rb1 / (ra1 + rb1) := div_nonneg hrb1p (le_of_lt htot)
        have h1b : rb1 / (ra1 + rb1) ≤ 1 := by
          rw [div_le_one htot]
          linarith
        have hsum : ra1 / (ra1 + rb1) + rb1 / (ra1 + rb1) = 1 := by
          rw [div_add_div_same, div_self (ne_of_gt htot)]
        exact ⟨round3_nonneg h0a, round3_le_one h1a, round3_nonneg h0b,
          round3_le_one h1b, round3_pair_sum hsum⟩
      · rw [if_neg htot, if_neg htot]
        refine ⟨round3_nonneg (by norm_num), round3_le_one (by norm_num),
          round3_nonneg (by norm_num), round3_le_one (by norm_num),
          round3_pair_sum (by norm_num)⟩
    · exact ih (ra + data.optionAVolume) (rb + data.optionBVolume)
        (by linarith) (by linarith)
        (fun y hy => hl y (List.mem_cons_of_mem _ hy)) p hp

theorem buildPriceHistory_running :
    ∀ (l : List (Int × DailyData)) (ra rb : ℚ) (i : Nat)
      (h : i < (buildPriceHistory ra rb l).length),
      ((buildPriceHistory ra rb l).get ⟨i, h⟩).optionA
        = round3 (runningShare
            (ra + ((l.take (i + 1)).map (fun p => p.2.optionAVolume)).sum)
            (rb + ((l.take (i + 1)).map (fun p => p.2.optionBVolume)).sum))
      ∧ ((buildPriceHistory ra rb l).get ⟨i, h⟩).optionB
        = round3 (runningShare
            (rb + ((l.take (i + 1)).map (fun p => p.2.optionBVolume)).sum)
            (ra + ((l.take (i + 1)).map (fun p => p.2.optionAVolume)).sum)) := by
  intro l
  induction l with
  | nil =>
    intro ra rb i h
    have hnil : buildPriceHistory ra rb ([] : List (Int × DailyData)) = [] := rfl
    rw [hnil] at h
    exact absurd h (by simp)
  | cons hd tl ih =>
    intro ra rb i h
    obtain ⟨d, data⟩ := hd
    cases i with
    | zero =>
      simp only [List.take_succ_cons, List.take_zero, List.map_cons, List.map_nil,
        List.sum_cons, List.sum_nil, add_zero]
      have hcons0 : buildPriceHistory ra rb ((d, data) :: tl)
          = { date := d, timestamp := data.timestamp,
              optionA := round3 (if ra + data.optionAVolume + (rb + data.optionBVolume) > 0
                then (ra + data.optionAVolume) / (ra + data.optionAVolume + (rb + data.optionBVolume))
                else 1 / 2),
              optionB := round3 (if ra + data.optionAVolume + (rb + data.optionBVolume) > 0
                then (rb + data.optionBVolume) / (ra + data.optionAVolume + (rb + data.optionBVolume))
                else 1 / 2),
              volume := data.totalVolume, trades := data.trades }
            :: buildPriceHistory (ra + data.optionAVolume) (rb + data.optionBVolume) tl := by
        rw [buildPriceHistory]
      rw [List.get_of_eq hcons0]
      constructor
      · show round3 (if ra + data.optionAVolume + (rb + data.optionBVolume) > 0
            then (ra + data.optionAVolume) / (ra + data.optionAVolume + (rb + data.optionBVolume))
            else 1 / 2)
          = round3 (runningShare (ra + data.optionAVolume) (rb + data.optionBVolume))
        unfold runningShare
        rfl
      · show round3 (if ra + data.optionAVolume + (rb + data.optionBVolume) > 0
            then (rb + data.optionBVolume) / (ra + data.optionAVolume + (rb + data.optionBVolume))
            else 1 / 2)
          = round3 (runningShare (rb + data.optionBVolume) (ra + data.optionAVolume))
        unfold runningShare
        by_cases htot : ra + data.optionAVolume + (rb + data.optionBVolume) > 0
        · rw [if_pos htot, if_pos (by linarith :
            rb + data.optionBVolume + (ra + data.optionAVolume) > 0)]
          rw [show rb + data.optionBVolume + (ra + data.optionAVolume)
            = ra + data.optionAVolume + (rb + data.optionBVolume) by ring]
        · rw [if_neg htot, if_neg (by intro hc; apply htot; linarith)]
    | succ i2 =>
      have hlen : i2 < (buildPriceHistory (ra + data.optionAVolume)
          (rb + data.optionBVolume) tl).length := by
        rw [buildPriceHistory] at h
        simpa using h
      have hstep : (buildPriceHistory ra rb ((d, data) :: tl)).get ⟨i2 + 1, h⟩
          = (buildPriceHistory (ra + data.optionAVolume)
              (rb + data.optionBVolume) tl).get ⟨i2, hlen⟩ := by
        have hcons : buildPriceHistory ra rb ((d, data) :: tl)
            = { date := d, timestamp := data.timestamp,
                optionA := round3 (if ra + data.optionAVolume + (rb + data.optionBVolume) > 0
                  then (ra + data.optionAVolume) / (ra + data.optionAVolume + (rb + data.optionBVolume))
                  else 1 / 2),
                optionB := round3 (if ra + data.optionAVolume + (rb + data.optionBVolume) > 0
                  then (rb + data.optionBVolume) / (ra + data.optionAVolume + (rb + data.optionBVolume))
                  else 1 / 2),
                volume := data.totalVolume, trades := data.trades }
              :: buildPriceHistory (ra + data.optionAVolume) (rb + data.optionBVolume) tl := by
          rw [buildPriceHistory]
        rw [List.get_of_eq hcons, List.get_cons_succ]
      rw [hstep]
      obtain ⟨ihA, ihB⟩ := ih (ra + data.optionAVolume) (rb + data.optionBVolume) i2 hlen
      rw [ihA, ihB]
      constructor
      · simp only [List.take_succ_cons, List.map_cons, List.sum_cons]
        simp only [add_assoc]
      · simp only [List.take_succ_cons, List.map_cons, List.sum_cons]
        simp only [add_assoc]

/-- C5: for every non-empty list of trade events with nonnegative amounts,
every bucket of the computed price history has `optionA` and `optionB`
inside `[0, 1]` with `optionA + optionB = 1` up to the rounding tolerance
`0.001`, and each bucket's price is the running cumulative share
`runningOptionXVolume / runningTotalVolume` over all buckets up to and
including that one (not that day's flow alone) rounded to 3 decimals. -/
theorem c5_price_history_invariant (events : List MarketEvent)
    (rand : Nat → ℚ) (now : Int)
    (hne : events ≠ []) (hnn : ∀ e ∈ events, 0 ≤ e.amount) :
    (∀ p ∈ (calculateMarketAnalytics events rand now).priceHistory,
        0 ≤ p.optionA ∧ p.optionA ≤ 1 ∧ 0 ≤ p.optionB ∧ p.optionB ≤ 1
          ∧ |p.optionA + p.optionB - 1| ≤ 1 / 1000)
    ∧ ∀ (i : Nat) (h : i < (calculateMarketAnalytics events rand now).priceHistory.length),
        ((calculateMarketAnalytics events rand now).priceHistory.get ⟨i, h⟩).optionA
          = round3 (runningShare (specRunningA (sortedDaily events) i)
              (specRunningB (sortedDaily events) i))
        ∧ ((calculateMarketAnalytics events rand now).priceHistory.get ⟨i, h⟩).optionB
          = round3 (runningShare (specRunningB (sortedDaily events) i)
              (specRunningA (sortedDaily events) i)) := by
  have hlen : ¬events.length = 0 := by
    simpa [List.length_eq_zero] using hne
  have hcalc : (calculateMarketAnalytics events rand now).priceHistory
      = buildPriceHistory 0 0 (sortedDaily events) := by
    simp only [calculateMarketAnalytics, if_neg hlen]
  constructor
  · intro p hp
    rw [hcalc] at hp
    exact buildPriceHistory_invariant (sortedDaily events) 0 0 (le_refl 0) (le_refl 0)
      (sortedDaily_nonneg hnn) p hp
  · intro i h
    have h2 : i < (buildPriceHistory 0 0 (sortedDaily events)).length := by
      rw [← hcalc]
      exact h
    have hrunA := (buildPriceHistory_running (sortedDaily events) 0 0 i h2).1
    have hrunB := (buildPriceHistory_running (sortedDaily events) 0 0 i h2).2
    rw [zero_add, zero_add] at hrunA hrunB
    constructor
    · simp only [specRunningA, specRunningB]
      rw [List.get_of_eq hcalc]
      exact hrunA
    · simp only [specRunningA, specRunningB]
      rw [List.get_of_eq hcalc]
      exact hrunB

/-- Concrete check of C5 on a one-event list (a single option-A purchase
of 7 units: the single bucket's price is 1 after rounding). -/
theorem c5_price_history_invariant_witness :
    (([c5FixtureEvent] : List MarketEvent) ≠ []
      ∧ ∀ e ∈ ([c5FixtureEvent] : List MarketEvent), 0 ≤ e.amount)
    ∧ ((∀ p ∈ (calculateMarketAnalytics [c5FixtureEvent] (fun _ => 0) 0).priceHistory,
        0 ≤ p.optionA ∧ p.optionA ≤ 1 ∧ 0 ≤ p.optionB ∧ p.optionB ≤ 1
          ∧ |p.optionA + p.optionB - 1| ≤ 1 / 1000)
      ∧ ∀ (i : Nat)
          (h : i < (calculateMarketAnalytics [c5FixtureEvent] (fun _ => 0) 0).priceHistory.length),
          ((calculateMarketAnalytics [c5FixtureEvent] (fun _ => 0) 0).priceHistory.get
              ⟨i, h⟩).optionA
            = round3 (runningShare (specRunningA (sortedDaily [c5FixtureEvent]) i)
                (specRunningB (sortedDaily [c5FixtureEvent]) i))
          ∧ ((calculateMarketAnalytics [c5FixtureEvent] (fun _ => 0) 0).priceHistory.get
              ⟨i, h⟩).optionB
            = round3 (runningShare (specRunningB (sortedDaily [c5FixtureEvent]) i)
                (specRunningA (sortedDaily [c5FixtureEvent]) i))) :=
  ⟨⟨by simp,
    by
      intro e he
      rw [List.mem_singleton] at he
      subst he
      show (0 : ℚ) ≤ 7
      norm_num⟩,
    c5_price_history_invariant [c5FixtureEvent] (fun _ => 0) 0 (by simp)
      (by
        intro e he
        rw [List.mem_singleton] at he
        subst he
        show (0 : ℚ) ≤ 7
        norm_num)⟩
